import Mathlib

/-!
Verification of the accessibility-snapshot diffing and baseline-management
engine (`src/utils/accessibilityDiff.ts` and the `take_change_snapshot`
handler of `src/tools/snapshot.ts`).

Modelling conventions of this shallow embedding:

* JavaScript values appearing as node attributes are modelled by `JValue`.
  Numbers are modelled as integers (no claim depends on non-integral
  numbers).  `JValue.undef` is JavaScript `undefined`.
* JavaScript objects (plain records) are modelled as association lists
  `List (String × α)` with unique keys maintained by `recordSet`
  (property assignment: update in place, or append when absent) and
  `recordGet` (property read, `none` = `undefined`).
* A raw tree node (`TextSnapshotNode`) carries its non-`children`
  own-properties in `attrs` and its optional child array separately (the
  child array is a recursive structure and cannot live inside `JValue`);
  the source's `key === 'children'` guard is kept.
* `String.prototype.localeCompare` (used only as a sort comparator on
  property keys) is modelled by the code-point order on strings; which
  deterministic total order is used is immaterial to every property
  proved here, since both the normalizer and the comparison canonicalizer
  sort with the same comparator and the sort is stable.
* `new Date().toISOString()` is modelled by an explicit `now : String`
  parameter threaded to `normalizeSnapshot`.
* `JSON.stringify` is modelled by `jsonString`, returning `none` exactly
  when JavaScript `JSON.stringify` returns `undefined`.
-/

/-- JavaScript attribute values. -/
inductive JValue where
  | null
  | undef
  | bool (b : Bool)
  | num (n : Int)
  | str (s : String)
  | arr (items : List JValue)
  | obj (fields : List (String × JValue))
deriving Repr

/-- Property read on a JavaScript object: first (unique) matching key. -/
def recordGet {α : Type} : List (String × α) → String → Option α
  | [], _ => none
  | p :: rest, k => if p.1 = k then some p.2 else recordGet rest k

/-- Property assignment on a JavaScript object: replace in place, else append. -/
def recordSet {α : Type} : List (String × α) → String → α → List (String × α)
  | [], k, v => [(k, v)]
  | p :: rest, k, v => if p.1 = k then (k, v) :: rest else p :: recordSet rest k v

/-- The key list of a JavaScript object (`Object.keys`). -/
def recordKeys {α : Type} (l : List (String × α)) : List String :=
  l.map Prod.fst

/-- `Array.prototype.join(sep)`. -/
def joinSep (sep : String) : List String → String
  | [] => ""
  | [x] => x
  | x :: y :: rest => x ++ sep ++ joinSep sep (y :: rest)

/-- `Object.fromEntries`: later entries overwrite earlier ones. -/
def fromEntries (l : List (String × JValue)) : List (String × JValue) :=
  l.foldl (fun acc p => recordSet acc p.1 p.2) []

/-- Lexicographic (code-point) comparison of character lists. -/
def lexLe : List Char → List Char → Bool
  | [], _ => true
  | _ :: _, [] => false
  | c :: cs, d :: ds => if c = d then lexLe cs ds else decide (c < d)

/-- `a.localeCompare(b) <= 0`, modelled as the code-point order. -/
def strLe (a b : String) : Bool := lexLe a.data b.data

/-- Sort comparator of the source (`([a], [b]) => a.localeCompare(b)`). -/
def keyLe (a b : String × JValue) : Prop := strLe a.1 b.1 = true

instance : DecidableRel keyLe := fun _ _ => inferInstanceAs (Decidable (_ = true))

theorem lexLe_total : ∀ x y : List Char, lexLe x y = true ∨ lexLe y x = true
  | [], _ => .inl rfl
  | _ :: _, [] => .inr rfl
  | c :: cs, d :: ds => by
    by_cases h : c = d
    · subst h
      simpa [lexLe] using lexLe_total cs ds
    · rcases lt_or_gt_of_ne h with h' | h'
      · exact .inl (by simp [lexLe, h, h'])
      · exact .inr (by simp [lexLe, Ne.symm h, h', not_lt_of_gt h'])

theorem lexLe_trans : ∀ x y z : List Char,
    lexLe x y = true → lexLe y z = true → lexLe x z = true
  | [], _, _, _, _ => rfl
  | _ :: _, [], _, h, _ => by simp [lexLe] at h
  | _ :: _, _ :: _, [], _, h' => by simp [lexLe] at h'
  | c :: cs, d :: ds, e :: es, h, h' => by
    by_cases hcd : c = d <;> by_cases hde : d = e
    · subst hcd; subst hde
      simp only [lexLe, if_pos rfl] at h h' ⊢
      exact lexLe_trans cs ds es h h'
    · subst hcd
      simpa [lexLe, hde] using h'
    · subst hde
      simpa [lexLe, hcd] using h
    · simp only [lexLe, if_neg hcd, decide_eq_true_eq] at h
      simp only [lexLe, if_neg hde, decide_eq_true_eq] at h'
      have hce : c < e := lt_trans h h'
      simp [lexLe, ne_of_lt hce, hce]

theorem lexLe_antisymm : ∀ x y : List Char,
    lexLe x y = true → lexLe y x = true → x = y
  | [], [], _, _ => rfl
  | [], _ :: _, _, h' => by simp [lexLe] at h'
  | _ :: _, [], h, _ => by simp [lexLe] at h
  | c :: cs, d :: ds, h, h' => by
    by_cases hcd : c = d
    · subst hcd
      simp only [lexLe, if_pos rfl] at h h'
      exact congrArg (c :: ·) (lexLe_antisymm cs ds h h')
    · simp only [lexLe, if_neg hcd, decide_eq_true_eq] at h
      simp only [lexLe, if_neg (Ne.symm hcd), decide_eq_true_eq] at h'
      exact absurd h' (not_lt_of_gt h)

theorem strLe_antisymm {a b : String} (h : strLe a b = true)
    (h' : strLe b a = true) : a = b := by
  have hd : a.data = b.data := lexLe_antisymm _ _ h h'
  cases a; cases b; exact congrArg String.mk hd

instance : IsTotal (String × JValue) keyLe := ⟨fun a b => lexLe_total a.1.data b.1.data⟩

instance : IsTrans (String × JValue) keyLe := ⟨fun _ _ _ h h' => lexLe_trans _ _ _ h h'⟩

/-- Strict key order, used to show the sorted form of a duplicate-free
entry list is unique. -/
def keyLt (a b : String × JValue) : Prop := keyLe a b ∧ a.1 ≠ b.1

instance : IsAntisymm (String × JValue) keyLt :=
  ⟨fun _ _ h h' => absurd (strLe_antisymm h.1 h'.1) h.2⟩

/-- `entries.sort(([a], [b]) => a.localeCompare(b))`: stable sort by key. -/
def sortByKey (l : List (String × JValue)) : List (String × JValue) :=
  List.insertionSort keyLe l

mutual

/-- `sanitizeValue` of the source: scalars as-is, arrays elementwise,
objects sanitized and key-sorted, anything else stringified
(`String(undefined) = "undefined"`). -/
def sanitizeValue : JValue → JValue
  | .null => .null
  | .str s => .str s
  | .num n => .num n
  | .bool b => .bool b
  | .arr items => .arr (sanitizeList items)
  | .obj fields => .obj (fromEntries (sortByKey (sanitizeFields fields)))
  | .undef => .str "undefined"
termination_by structural v => v

/-- `value.map(item => sanitizeValue(item))`. -/
def sanitizeList : List JValue → List JValue
  | [] => []
  | v :: rest => sanitizeValue v :: sanitizeList rest
termination_by structural l => l

/-- `Object.entries(value).map(([key, val]) => [key, sanitizeValue(val)])`. -/
def sanitizeFields : List (String × JValue) → List (String × JValue)
  | [] => []
  | (k, v) :: rest => (k, sanitizeValue v) :: sanitizeFields rest
termination_by structural l => l

end

mutual

/-- `toComparable` of the source: canonical form used for equality testing. -/
def toComparable : JValue → JValue
  | .null => .null
  | .undef => .undef
  | .str s => .str s
  | .num n => .num n
  | .bool b => .bool b
  | .arr items => .arr (toComparableList items)
  | .obj fields => .obj (fromEntries (sortByKey (toComparableFields fields)))
termination_by structural v => v

/-- `value.map(item => toComparable(item))`. -/
def toComparableList : List JValue → List JValue
  | [] => []
  | v :: rest => toComparable v :: toComparableList rest
termination_by structural l => l

/-- `Object.entries(value).map(([key, val]) => [key, toComparable(val)])`. -/
def toComparableFields : List (String × JValue) → List (String × JValue)
  | [] => []
  | (k, v) :: rest => (k, toComparable v) :: toComparableFields rest
termination_by structural l => l

end

/-- Lower-case hexadecimal digit. -/
def hexDigit (n : Nat) : Char :=
  if n < 10 then Char.ofNat (48 + n) else Char.ofNat (87 + n)

/-- JSON string escaping of one character. -/
def escapeJsonChar (c : Char) : String :=
  if c = '"' then "\\\""
  else if c = '\\' then "\\\\"
  else if c = '\x08' then "\\b"
  else if c = '\x0c' then "\\f"
  else if c = '\n' then "\\n"
  else if c = '\r' then "\\r"
  else if c = '\t' then "\\t"
  else if c.toNat < 32 then
    "\\u00" ++ String.singleton (hexDigit (c.toNat / 16)) ++
      String.singleton (hexDigit (c.toNat % 16))
  else String.singleton c

/-- JSON serialization of a string literal. -/
def jsonQuote (s : String) : String :=
  "\"" ++ String.join (s.data.map escapeJsonChar) ++ "\""

mutual

/-- `JSON.stringify`; `none` models a JavaScript `undefined` result. -/
def jsonString : JValue → Option String
  | .undef => none
  | .null => some "null"
  | .bool b => some (if b then "true" else "false")
  | .num n => some (toString n)
  | .str s => some (jsonQuote s)
  | .arr items => some ("[" ++ joinSep "," (jsonStringList items) ++ "]")
  | .obj fields => some ("\x7b" ++ joinSep "," (jsonStringFields fields) ++ "\x7d")
termination_by structural v => v

/-- Array elements: an `undefined` element serializes as `null`. -/
def jsonStringList : List JValue → List String
  | [] => []
  | v :: rest => ((jsonString v).getD "null") :: jsonStringList rest
termination_by structural l => l

/-- Object entries: an entry whose value serializes to `undefined` is dropped. -/
def jsonStringFields : List (String × JValue) → List String
  | [] => []
  | (k, v) :: rest =>
    match jsonString v with
    | none => jsonStringFields rest
    | some s => (jsonQuote k ++ ":" ++ s) :: jsonStringFields rest
termination_by structural l => l

end

/-- `stableStringify` of the source. -/
def stableStringify (value : JValue) : Option String :=
  jsonString (toComparable value)

/-- `areEqual` of the source: canonical serializations compared with `===`. -/
def areEqual (a b : JValue) : Bool :=
  stableStringify a == stableStringify b

/-- Raw accessibility-tree node, as captured by the external collaborator.
`attrs` holds every own property except the child array. -/
inductive TextSnapshotNode where
  | mk (attrs : List (String × JValue)) (children : Option (List TextSnapshotNode))
deriving Repr

/-- The non-`children` own-properties of a raw node. -/
def TextSnapshotNode.attrs : TextSnapshotNode → List (String × JValue)
  | .mk a _ => a

/-- The optional child array of a raw node. -/
def TextSnapshotNode.children : TextSnapshotNode → Option (List TextSnapshotNode)
  | .mk _ c => c

/-- A captured raw snapshot (`TextSnapshot` of `McpContext`): its root node. -/
structure TextSnapshot where
  root : TextSnapshotNode
deriving Repr

/-- `getStableNodeId` of the source: concatenate every present identity
hint, else fall back to positional identity. -/
def getStableNodeId (node : TextSnapshotNode) (path : String) : String :=
  let identifiers : List String :=
    (match recordGet node.attrs "backendDOMNodeId" with
      | some (.num n) => ["backend:" ++ toString n]
      | _ => []) ++
    (match recordGet node.attrs "nodeId" with
      | some (.num n) => ["node:" ++ toString n]
      | _ => []) ++
    (match recordGet node.attrs "axId" with
      | some (.str s) => ["ax:" ++ s]
      | _ => [])
  if identifiers.isEmpty then "path:" ++ path else joinSep "|" identifiers

/-- `value === undefined`. -/
def JValue.isUndef : JValue → Bool
  | .undef => true
  | _ => false

/-- `sanitizeNodeData` of the source: copy every attribute except the child
list and the field literally named `id`, skipping `undefined` values. -/
def sanitizeNodeData (node : TextSnapshotNode) : List (String × JValue) :=
  node.attrs.foldl
    (fun data p =>
      if p.1 = "children" ∨ p.1 = "id" then data
      else if p.2.isUndef then data
      else recordSet data p.1 (sanitizeValue p.2))
    []

/-- `normalizeName` of the source. -/
def normalizeName : JValue → Option String
  | .str s => some s
  | .num n => some (toString n)
  | .obj fields =>
    match recordGet fields "value" with
    | some (.str s) => some s
    | some (.num n) => some (toString n)
    | _ => none
  | _ => none

/-- Normalized accessibility node. -/
structure NormalizedAXNode where
  id : String
  path : String
  role : Option String
  name : Option String
  data : List (String × JValue)
  parentId : Option String
deriving Repr

/-- Normalized snapshot: capture timestamp and the id-keyed node mapping. -/
structure NormalizedSnapshot where
  capturedAt : String
  nodes : List (String × NormalizedAXNode)
deriving Repr

mutual

/-- `traverse` of the source: depth-first pre-order walk building the
id-keyed node mapping. -/
def traverse : TextSnapshotNode → List String → Option String →
    List (String × NormalizedAXNode) → List (String × NormalizedAXNode)
  | node@(.mk _ children), pathSegments, parentId, nodes =>
    let path := joinSep "." pathSegments
    let id := getStableNodeId node path
    let data := sanitizeNodeData node
    let normalized : NormalizedAXNode :=
      { id := id
        path := path
        role := match recordGet data "role" with
          | some (.str s) => some s
          | _ => none
        name := match recordGet data "name" with
          | some (.str s) => some s
          | some v => normalizeName v
          | none => none
        data := data
        parentId := parentId }
    let nodes' := recordSet nodes id normalized
    match children with
    | none => nodes'
    | some cs => traverseChildren cs pathSegments id 0 nodes'

/-- `node.children?.forEach((child, index) => traverse(child, ..., index))`. -/
def traverseChildren : List TextSnapshotNode → List String → String → Nat →
    List (String × NormalizedAXNode) → List (String × NormalizedAXNode)
  | [], _, _, _, nodes => nodes
  | c :: rest, pathSegments, parentId, index, nodes =>
    traverseChildren rest pathSegments parentId (index + 1)
      (traverse c (pathSegments ++ [toString index]) (some parentId) nodes)

end

/-- `normalizeSnapshot` of the source; `now` models `new Date().toISOString()`. -/
def normalizeSnapshot (snapshot : TextSnapshot) (now : String) : NormalizedSnapshot :=
  { capturedAt := now
    nodes := traverse snapshot.root ["0"] none [] }

/-- One property-level change record. -/
structure NodeChangeDetail where
  property : String
  before : JValue
  after : JValue
deriving Repr

/-- One changed-node report. -/
structure NodeChange where
  id : String
  path : String
  role : Option String
  name : Option String
  changes : List NodeChangeDetail
deriving Repr

/-- The diff of two normalized snapshots. -/
structure SnapshotDiff where
  added : List NormalizedAXNode
  removed : List NormalizedAXNode
  changed : List NodeChange
deriving Repr

/-- A `data` read (`data[key]`): a missing key reads as `undefined`. -/
def jsField (data : List (String × JValue)) (k : String) : JValue :=
  match recordGet data k with
  | none => JValue.undef
  | some v => v

/-- Key dedup of `new Set([...a, ...b])`: the list of first occurrences, in
first-occurrence order (the iteration order of a JavaScript `Set`). -/
def uniqueKeys : List String → List String
  | [] => []
  | k :: rest => k :: (uniqueKeys rest).filter (· != k)

/-- `diffNode` of the source: property-level diff over the union of keys. -/
def diffNode (baseline current : NormalizedAXNode) : List NodeChangeDetail :=
  let keys := uniqueKeys (recordKeys baseline.data ++ recordKeys current.data)
  keys.filterMap (fun key =>
    let baselineValue := jsField baseline.data key
    let currentValue := jsField current.data key
    if areEqual baselineValue currentValue then none
    else some { property := key, before := baselineValue, after := currentValue })

/-- `diffSnapshots` of the source. -/
def diffSnapshots (baseline current : NormalizedSnapshot) : SnapshotDiff :=
  let added := (current.nodes.filter
    (fun p => (recordGet baseline.nodes p.1).isNone)).map Prod.snd
  let changed := current.nodes.filterMap (fun p =>
    match recordGet baseline.nodes p.1 with
    | none => none
    | some previousNode =>
      let nodeDiff := diffNode previousNode p.2
      if nodeDiff.isEmpty then none
      else some
        { id := p.1
          path := p.2.path
          role := p.2.role.orElse (fun _ => previousNode.role)
          name := p.2.name.orElse (fun _ => previousNode.name)
          changes := nodeDiff })
  let removed := (baseline.nodes.filter
    (fun p => (recordGet current.nodes p.1).isNone)).map Prod.snd
  { added := added, removed := removed, changed := changed }

/-- `hasSnapshotChanges` of the source. -/
def hasSnapshotChanges (diff : SnapshotDiff) : Bool :=
  decide (diff.added.length > 0) || decide (diff.removed.length > 0) ||
    decide (diff.changed.length > 0)

/-- Arguments of the `take_change_snapshot` tool. -/
structure ChangeSnapshotParams where
  baselineKey : Option String
  replaceBaseline : Option Bool
  compareTo : Option String
deriving Repr

/-- Outcome of one `take_change_snapshot` invocation: the response lines
appended, and the baseline store afterwards. -/
structure ChangeSnapshotResult where
  lines : List String
  store : List (String × NormalizedSnapshot)
deriving Repr

/-- JavaScript whitespace recognized by `String.prototype.trim`. -/
def isJsWhitespace (c : Char) : Bool :=
  c = ' ' || c = '\t' || c = '\n' || c = '\r' || c = '\x0b' || c = '\x0c'

/-- `String.prototype.trim`: strip whitespace from both ends. -/
def jsTrim (s : String) : String :=
  ⟨((s.data.dropWhile isJsWhitespace).reverse.dropWhile isJsWhitespace).reverse⟩

/-- `x?.trim() || d` of the handler (JavaScript falsy test on strings). -/
def jsStringOrDefault (o : Option String) (d : String) : String :=
  match o with
  | none => d
  | some s => if jsTrim s = "" then d else jsTrim s

/-- `formatNodeSummary` of the source (JavaScript truthiness on strings). -/
def formatNodeSummary (node : NormalizedAXNode) : String :=
  let role := match node.role with
    | some r => if r = "" then "[unknown role]" else "[" ++ r ++ "]"
    | none => "[unknown role]"
  let name := match node.name with
    | some n => if n = "" then "" else " \"" ++ n ++ "\""
    | none => ""
  role ++ name ++ " at path " ++ node.path

/-- `formatChangeSummary` of the source. -/
def formatChangeSummary (change : NodeChange) : String :=
  let role := match change.role with
    | some r => if r = "" then "[unknown role]" else "[" ++ r ++ "]"
    | none => "[unknown role]"
  let name := match change.name with
    | some n => if n = "" then "" else " \"" ++ n ++ "\""
    | none => ""
  role ++ name ++ " at path " ++ change.path

/-- `formatDiffValue` of the source. -/
def formatDiffValue : JValue → String
  | .null => "null"
  | .undef => "undefined"
  | .str s => jsonQuote s
  | .num n => toString n
  | .bool b => if b then "true" else "false"
  | .arr items => (jsonString (.arr items)).getD "undefined"
  | .obj fields => (jsonString (.obj fields)).getD "undefined"

/-- The response lines the handler emits for one changed node. -/
def changeLines (change : NodeChange) : List String :=
  ("- " ++ formatChangeSummary change) ::
    change.changes.map (fun detail =>
      "  - " ++ detail.property ++ ": " ++ formatDiffValue detail.before ++
        " -> " ++ formatDiffValue detail.after)

/-- The response lines the handler emits when the diff reports changes. -/
def diffReportLines (compareKey : String) (diff : SnapshotDiff) : List String :=
  ["Accessibility changes compared to baseline \"" ++ compareKey ++ "\":",
   "Added nodes: " ++ toString diff.added.length ++ ", Removed nodes: " ++
     toString diff.removed.length ++ ", Changed nodes: " ++
     toString diff.changed.length] ++
  (if diff.added.length ≠ 0 then
    "## Added" :: diff.added.map (fun node => "- " ++ formatNodeSummary node)
  else []) ++
  (if diff.removed.length ≠ 0 then
    "## Removed" :: diff.removed.map (fun node => "- " ++ formatNodeSummary node)
  else []) ++
  (if diff.changed.length ≠ 0 then
    "## Changed" :: diff.changed.flatMap changeLines
  else [])

/-- The `take_change_snapshot` handler of `src/tools/snapshot.ts`.
`capture` is the result of `context.captureAccessibilitySnapshot()`
(`none` = capture unavailable), `now` the capture timestamp, `store` the
context-owned baseline store. -/
def takeChangeSnapshot (params : ChangeSnapshotParams)
    (capture : Option TextSnapshot) (now : String)
    (store : List (String × NormalizedSnapshot)) : ChangeSnapshotResult :=
  let baselineKey := jsStringOrDefault params.baselineKey "default"
  let compareKey := jsStringOrDefault params.compareTo baselineKey
  let replaceBaseline := params.replaceBaseline.getD true
  match capture with
  | none =>
    ⟨["Unable to capture accessibility snapshot for the current page."], store⟩
  | some snapshot =>
    let normalizedSnapshot := normalizeSnapshot snapshot now
    match recordGet store compareKey with
    | none =>
      ⟨["No baseline found for key \"" ++ compareKey ++
          "\". Created a baseline with the current snapshot."],
        recordSet store baselineKey normalizedSnapshot⟩
    | some baseline =>
      let diff := diffSnapshots baseline normalizedSnapshot
      let lines :=
        if !hasSnapshotChanges diff then
          ["No accessibility changes compared to baseline \"" ++ compareKey ++ "\"."]
        else diffReportLines compareKey diff
      let finalStore :=
        if replaceBaseline then recordSet store baselineKey normalizedSnapshot
        else store
      ⟨lines, finalStore⟩

/-! ### Association-list (JavaScript object) lemmas -/

theorem recordGet_set_same {α : Type} (l : List (String × α)) (k : String) (v : α) :
    recordGet (recordSet l k v) k = some v := by
  induction l with
  | nil => simp [recordSet, recordGet]
  | cons p rest ih =>
    by_cases h : p.1 = k
    · simp [recordSet, recordGet, h]
    · simp [recordSet, recordGet, h, ih]

theorem recordGet_set_ne {α : Type} (l : List (String × α)) (k j : String) (v : α)
    (h : j ≠ k) : recordGet (recordSet l k v) j = recordGet l j := by
  induction l with
  | nil => simp [recordSet, recordGet, Ne.symm h]
  | cons p rest ih =>
    by_cases hp : p.1 = k
    · simp [recordSet, recordGet, hp, Ne.symm h]
    · simp [recordSet, recordGet, hp, ih]

theorem recordKeys_set_of_mem {α : Type} (l : List (String × α)) (k : String) (v : α)
    (h : k ∈ recordKeys l) : recordKeys (recordSet l k v) = recordKeys l := by
  induction l with
  | nil => simp [recordKeys] at h
  | cons p rest ih =>
    by_cases hp : p.1 = k
    · simp [recordSet, recordKeys, hp]
    · have h' : k ∈ recordKeys rest := by
        simp only [recordKeys, List.map_cons, List.mem_cons] at h
        rcases h with h | h
        · exact absurd h.symm hp
        · exact h
      simp only [recordSet, if_neg hp, recordKeys, List.map_cons]
      exact congrArg (p.1 :: ·) (ih h')

theorem recordKeys_set_of_notMem {α : Type} (l : List (String × α)) (k : String) (v : α)
    (h : k ∉ recordKeys l) : recordKeys (recordSet l k v) = recordKeys l ++ [k] := by
  induction l with
  | nil => simp [recordSet, recordKeys]
  | cons p rest ih =>
    simp only [recordKeys, List.map_cons, List.mem_cons, not_or] at h
    have hp : p.1 ≠ k := fun hc => h.1 hc.symm
    simp only [recordSet, if_neg hp, recordKeys, List.map_cons, List.cons_append]
    exact congrArg (p.1 :: ·) (ih h.2)

theorem recordKeys_set_nodup {α : Type} (l : List (String × α)) (k : String) (v : α)
    (h : (recordKeys l).Nodup) : (recordKeys (recordSet l k v)).Nodup := by
  by_cases hm : k ∈ recordKeys l
  · rw [recordKeys_set_of_mem l k v hm]
    exact h
  · rw [recordKeys_set_of_notMem l k v hm]
    simpa [List.nodup_append] using ⟨h, hm⟩

theorem recordGet_eq_none_iff {α : Type} (l : List (String × α)) (k : String) :
    recordGet l k = none ↔ k ∉ recordKeys l := by
  induction l with
  | nil => simp [recordGet, recordKeys]
  | cons p rest ih =>
    by_cases hp : p.1 = k
    · simp [recordGet, recordKeys, hp]
    · simp [recordGet, recordKeys, hp, ih, Ne.symm hp]

theorem recordGet_of_mem_nodup {α : Type} {l : List (String × α)} {k : String} {v : α}
    (hn : (recordKeys l).Nodup) (hm : (k, v) ∈ l) : recordGet l k = some v := by
  induction l with
  | nil => simp at hm
  | cons p rest ih =>
    simp only [recordKeys, List.map_cons, List.nodup_cons] at hn
    rcases List.mem_cons.mp hm with h | h
    · cases h.symm
      simp [recordGet]
    · have hk : k ∈ List.map Prod.fst rest := List.mem_map_of_mem Prod.fst h
      have hp : p.1 ≠ k := fun hc => hn.1 (hc ▸ hk)
      simp only [recordGet, if_neg hp]
      exact ih hn.2 h

theorem recordGet_isSome_of_mem_keys {α : Type} {l : List (String × α)} {k : String}
    (h : k ∈ recordKeys l) : (recordGet l k).isSome = true := by
  rcases hg : recordGet l k with _ | v
  · exact absurd h ((recordGet_eq_none_iff l k).mp hg)
  · rfl

theorem mem_uniqueKeys {x : String} : ∀ {l : List String}, x ∈ uniqueKeys l ↔ x ∈ l
  | [] => by simp [uniqueKeys]
  | k :: rest => by
    by_cases h : x = k
    · simp [uniqueKeys, h]
    · simp [uniqueKeys, h, List.mem_filter, mem_uniqueKeys (l := rest), bne_iff_ne, h]

/-! ### Basic canonical-equality lemmas -/

theorem areEqual_refl (v : JValue) : areEqual v v = true := by
  simp [areEqual]

/-- `diffNode` on two nodes carrying equal `data` reports nothing. -/
theorem diffNode_eq_nil_of_data_eq {baseline current : NormalizedAXNode}
    (h : baseline.data = current.data) : diffNode baseline current = [] := by
  unfold diffNode
  refine List.filterMap_eq_nil_iff.mpr (fun k _ => ?_)
  simp [h, areEqual_refl]

theorem diffSnapshots_added (baseline current : NormalizedSnapshot) :
    (diffSnapshots baseline current).added =
      (current.nodes.filter
        (fun p => (recordGet baseline.nodes p.1).isNone)).map Prod.snd := rfl

theorem diffSnapshots_removed (baseline current : NormalizedSnapshot) :
    (diffSnapshots baseline current).removed =
      (baseline.nodes.filter
        (fun p => (recordGet current.nodes p.1).isNone)).map Prod.snd := rfl

theorem diffSnapshots_changed (baseline current : NormalizedSnapshot) :
    (diffSnapshots baseline current).changed =
      current.nodes.filterMap (fun p =>
        match recordGet baseline.nodes p.1 with
        | none => none
        | some previousNode =>
          let nodeDiff := diffNode previousNode p.2
          if nodeDiff.isEmpty then none
          else some
            { id := p.1
              path := p.2.path
              role := p.2.role.orElse (fun _ => previousNode.role)
              name := p.2.name.orElse (fun _ => previousNode.name)
              changes := nodeDiff }) := rfl

theorem snapshotDiff_eta (d : SnapshotDiff) :
    d = { added := d.added, removed := d.removed, changed := d.changed } := rfl

/-- `diffSnapshots` reports nothing when the two node mappings are equal
(the capture timestamps may differ). -/
theorem diffSnapshots_eq_nil_of_nodes_eq {baseline current : NormalizedSnapshot}
    (h : baseline.nodes = current.nodes)
    (hn : (recordKeys current.nodes).Nodup) :
    diffSnapshots baseline current = { added := [], removed := [], changed := [] } := by
  have hget : ∀ p ∈ current.nodes, recordGet current.nodes p.1 = some p.2 := by
    intro p hp
    exact recordGet_of_mem_nodup hn hp
  have hadded : (diffSnapshots baseline current).added = [] := by
    rw [diffSnapshots_added, List.map_eq_nil_iff]
    refine List.filter_eq_nil_iff.mpr (fun p hp => ?_)
    rw [h, hget p hp]
    simp
  have hremoved : (diffSnapshots baseline current).removed = [] := by
    rw [diffSnapshots_removed, List.map_eq_nil_iff]
    refine List.filter_eq_nil_iff.mpr (fun p hp => ?_)
    rw [hget p (h ▸ hp)]
    simp
  have hchanged : (diffSnapshots baseline current).changed = [] := by
    rw [diffSnapshots_changed]
    refine List.filterMap_eq_nil_iff.mpr (fun p hp => ?_)
    rw [h, hget p hp]
    simp [diffNode_eq_nil_of_data_eq rfl]
  rw [snapshotDiff_eta (diffSnapshots baseline current), hadded, hremoved, hchanged]

/-! ### Traversal invariants -/

mutual

theorem traverse_keys_nodup : ∀ (n : TextSnapshotNode) (ps : List String)
    (parent : Option String) (init : List (String × NormalizedAXNode)),
    (recordKeys init).Nodup → (recordKeys (traverse n ps parent init)).Nodup
  | .mk _ none, _, _, init, h => recordKeys_set_nodup init _ _ h
  | .mk _ (some cs), ps, _, init, h =>
    traverseChildren_keys_nodup cs ps _ 0 _ (recordKeys_set_nodup init _ _ h)
termination_by structural n => n

theorem traverseChildren_keys_nodup : ∀ (cs : List TextSnapshotNode)
    (ps : List String) (pid : String) (idx : Nat)
    (init : List (String × NormalizedAXNode)),
    (recordKeys init).Nodup → (recordKeys (traverseChildren cs ps pid idx init)).Nodup
  | [], _, _, _, _, h => h
  | c :: rest, ps, pid, idx, _, h =>
    traverseChildren_keys_nodup rest ps pid (idx + 1) _
      (traverse_keys_nodup c (ps ++ [toString idx]) (some pid) _ h)
termination_by structural cs => cs

end

/-- The node mapping of a normalized snapshot has pairwise-distinct ids. -/
theorem normalizeSnapshot_keys_nodup (s : TextSnapshot) (now : String) :
    (recordKeys (normalizeSnapshot s now).nodes).Nodup :=
  traverse_keys_nodup s.root ["0"] none [] (by simp [recordKeys])

mutual

/-- The stable ids of all nodes of a raw tree, in traversal order. -/
def idList : TextSnapshotNode → List String → List String
  | node@(.mk _ children), ps =>
    getStableNodeId node (joinSep "." ps) ::
      (match children with
       | none => []
       | some cs => idListChildren cs ps 0)
termination_by structural n => n

/-- The stable ids of a child list, in traversal order. -/
def idListChildren : List TextSnapshotNode → List String → Nat → List String
  | [], _, _ => []
  | c :: rest, ps, idx =>
    idList c (ps ++ [toString idx]) ++ idListChildren rest ps (idx + 1)
termination_by structural cs => cs

end

mutual

/-- Number of nodes of a raw tree. -/
def nodeCount : TextSnapshotNode → Nat
  | .mk _ none => 1
  | .mk _ (some cs) => 1 + nodeCountChildren cs
termination_by structural n => n

/-- Number of nodes of a child list. -/
def nodeCountChildren : List TextSnapshotNode → Nat
  | [] => 0
  | c :: rest => nodeCount c + nodeCountChildren rest
termination_by structural cs => cs

end

mutual

theorem idList_length : ∀ (n : TextSnapshotNode) (ps : List String),
    (idList n ps).length = nodeCount n
  | .mk _ none, _ => rfl
  | .mk _ (some cs), ps => by
    simp only [idList, nodeCount, List.length_cons]
    rw [idListChildren_length cs ps 0]
    omega
termination_by structural n => n

theorem idListChildren_length : ∀ (cs : List TextSnapshotNode) (ps : List String)
    (idx : Nat), (idListChildren cs ps idx).length = nodeCountChildren cs
  | [], _, _ => rfl
  | c :: rest, ps, idx => by
    simp only [idListChildren, nodeCountChildren, List.length_append]
    rw [idList_length c (ps ++ [toString idx]), idListChildren_length rest ps (idx + 1)]
termination_by structural cs => cs

end

mutual

theorem traverse_keys : ∀ (n : TextSnapshotNode) (ps : List String)
    (parent : Option String) (init : List (String × NormalizedAXNode)),
    (recordKeys init ++ idList n ps).Nodup →
    recordKeys (traverse n ps parent init) = recordKeys init ++ idList n ps
  | .mk attrs children, ps, parent, init, h => by
    have hid : getStableNodeId (.mk attrs children) (joinSep "." ps) ∉ recordKeys init := by
      have hd := List.disjoint_of_nodup_append h
      intro hc
      exact hd hc (by cases children <;> simp [idList])
    cases children with
    | none =>
      show recordKeys (recordSet init _ _) = _
      rw [recordKeys_set_of_notMem _ _ _ hid]
      simp [idList]
    | some cs =>
      show recordKeys (traverseChildren cs ps _ 0 (recordSet init _ _)) = _
      rw [traverseChildren_keys cs ps _ 0 _ ?_, recordKeys_set_of_notMem _ _ _ hid]
      · simp [idList]
      · rw [recordKeys_set_of_notMem _ _ _ hid]
        simpa [idList, List.append_assoc] using h
termination_by structural n => n

theorem traverseChildren_keys : ∀ (cs : List TextSnapshotNode) (ps : List String)
    (pid : String) (idx : Nat) (init : List (String × NormalizedAXNode)),
    (recordKeys init ++ idListChildren cs ps idx).Nodup →
    recordKeys (traverseChildren cs ps pid idx init) =
      recordKeys init ++ idListChildren cs ps idx
  | [], _, _, _, init, _ => by simp [traverseChildren, idListChildren]
  | c :: rest, ps, pid, idx, init, h => by
    have h' : ((recordKeys init ++ idList c (ps ++ [toString idx])) ++
        idListChildren rest ps (idx + 1)).Nodup := by
      simpa [idListChildren, List.append_assoc] using h
    show recordKeys (traverseChildren rest ps pid (idx + 1)
      (traverse c (ps ++ [toString idx]) (some pid) init)) = _
    rw [traverseChildren_keys rest ps pid (idx + 1) _ ?_]
    · rw [traverse_keys c (ps ++ [toString idx]) (some pid) init
        (h'.sublist (List.sublist_append_left _ _))]
      simp [idListChildren, List.append_assoc]
    · rw [traverse_keys c (ps ++ [toString idx]) (some pid) init
        (h'.sublist (List.sublist_append_left _ _))]
      exact h'
termination_by structural cs => cs

end

/-! ### Claim C5 -/

/-- C5: for every raw tree `T`, diffing the normalization of `T` against a
second, independent normalization of the same `T` (the capture timestamps
may differ) yields a diff whose added, removed and changed lists are all
empty. -/
theorem diff_of_renormalization_is_empty (t : TextSnapshot) (now₁ now₂ : String) :
    diffSnapshots (normalizeSnapshot t now₁) (normalizeSnapshot t now₂) =
      { added := [], removed := [], changed := [] } :=
  diffSnapshots_eq_nil_of_nodes_eq rfl (normalizeSnapshot_keys_nodup t now₂)

/-! ### Claim C4 -/

/-- C4 counterexample: a raw tree whose two children carry the same
`backendDOMNodeId` hint has 3 raw nodes, but normalization stores both
children under the single stable id `backend:1`, so the node mapping has
only 2 entries — the claimed "one normalized node per raw node / entry
count equals raw node count" fails. -/
theorem normalize_merges_duplicate_hint_ids :
    (normalizeSnapshot
        ⟨.mk [] (some [.mk [("backendDOMNodeId", .num 1)] none,
                       .mk [("backendDOMNodeId", .num 1)] none])⟩ "t").nodes.length ≠
      nodeCount (.mk [] (some [.mk [("backendDOMNodeId", .num 1)] none,
                              .mk [("backendDOMNodeId", .num 1)] none])) := by
  decide

/-- C4 (amended): normalization walks every raw node and stores one
normalized node per raw node under that node's stable id, and the ids of
the resulting mapping are pairwise distinct; the number of entries equals
the number of raw nodes whenever the stable ids of the raw tree are
pairwise distinct (raw nodes whose identity hints collide are stored under
the same id, the later overwriting the earlier). -/
theorem normalize_node_multiplicity (s : TextSnapshot) (now : String) :
    (recordKeys (normalizeSnapshot s now).nodes).Nodup ∧
      ((idList s.root ["0"]).Nodup →
        (normalizeSnapshot s now).nodes.length = nodeCount s.root) := by
  refine ⟨normalizeSnapshot_keys_nodup s now, fun h => ?_⟩
  have hk : recordKeys (normalizeSnapshot s now).nodes = idList s.root ["0"] := by
    simpa [recordKeys] using
      traverse_keys s.root ["0"] none [] (by simpa [recordKeys] using h)
  have hlen : (recordKeys (normalizeSnapshot s now).nodes).length =
      (normalizeSnapshot s now).nodes.length := by
    simp [recordKeys]
  rw [← hlen, hk, idList_length]

/-- C4 witness: on a concrete tree with pairwise-distinct (path-based)
stable ids, the mapping has exactly one entry per raw node. -/
theorem normalize_node_multiplicity_witness :
    (normalizeSnapshot
        ⟨.mk [] (some [.mk [("name", .str "a")] none,
                       .mk [("name", .str "b")] none])⟩ "t").nodes.length =
      nodeCount (.mk [] (some [.mk [("name", .str "a")] none,
                              .mk [("name", .str "b")] none])) :=
  (normalize_node_multiplicity
    ⟨.mk [] (some [.mk [("name", .str "a")] none,
                   .mk [("name", .str "b")] none])⟩ "t").2 (by decide)

/-! ### Claim C2 -/

theorem sanitizeNodeData_fold_get (attrs : List (String × JValue))
    (acc : List (String × JValue)) (k : String)
    (hn : (recordKeys attrs).Nodup)
    (hdisj : ∀ j ∈ recordKeys attrs, j ∉ recordKeys acc) :
    recordGet (attrs.foldl
      (fun data p =>
        if p.1 = "children" ∨ p.1 = "id" then data
        else if p.2.isUndef then data
        else recordSet data p.1 (sanitizeValue p.2)) acc) k =
      match recordGet attrs k with
      | some v =>
        if (k = "children" ∨ k = "id") ∨ v.isUndef then recordGet acc k
        else some (sanitizeValue v)
      | none => recordGet acc k := by
  induction attrs generalizing acc with
  | nil => simp [recordGet]
  | cons p rest ih =>
    obtain ⟨k₀, v₀⟩ := p
    simp only [recordKeys, List.map_cons, List.nodup_cons, List.mem_cons] at hn hdisj
    have hk₀acc : k₀ ∉ recordKeys acc := hdisj k₀ (.inl rfl)
    have hdisj' : ∀ j ∈ recordKeys rest, j ∉ recordKeys acc :=
      fun j hj => hdisj j (.inr hj)
    by_cases hguard : (k₀ = "children" ∨ k₀ = "id") ∨ (v₀ : JValue).isUndef = true
    · have hstep : (if k₀ = "children" ∨ k₀ = "id" then acc
          else if (v₀ : JValue).isUndef then acc
          else recordSet acc k₀ (sanitizeValue v₀)) = acc := by
        rcases hguard with h | h
        · rw [if_pos h]
        · by_cases h' : k₀ = "children" ∨ k₀ = "id"
          · rw [if_pos h']
          · rw [if_neg h', if_pos h]
      rw [List.foldl_cons, hstep, ih acc hn.2 hdisj']
      by_cases hk : k₀ = k
      · subst hk
        have hrest : recordGet rest k₀ = none :=
          (recordGet_eq_none_iff rest k₀).mpr hn.1
        simp [recordGet, hrest, hguard]
      · simp only [recordGet, if_neg hk]
    · have h1 : ¬(k₀ = "children" ∨ k₀ = "id") := fun h => hguard (.inl h)
      have h2 : ¬((v₀ : JValue).isUndef = true) := fun h => hguard (.inr h)
      have hstep : (if k₀ = "children" ∨ k₀ = "id" then acc
          else if (v₀ : JValue).isUndef then acc
          else recordSet acc k₀ (sanitizeValue v₀)) =
            recordSet acc k₀ (sanitizeValue v₀) := by
        rw [if_neg h1, if_neg h2]
      have hdisj'' : ∀ j ∈ recordKeys rest,
          j ∉ recordKeys (recordSet acc k₀ (sanitizeValue v₀)) := by
        intro j hj
        rw [recordKeys_set_of_notMem acc k₀ _ hk₀acc]
        simp only [List.mem_append, List.mem_singleton, not_or]
        exact ⟨hdisj' j hj, fun hc => hn.1 (hc ▸ hj)⟩
      rw [List.foldl_cons, hstep, ih _ hn.2 hdisj'']
      by_cases hk : k₀ = k
      · subst hk
        have hrest : recordGet rest k₀ = none :=
          (recordGet_eq_none_iff rest k₀).mpr hn.1
        simp [recordGet, hrest, hguard, recordGet_set_same]
      · simp only [recordGet, if_neg hk]
        have hset : recordGet (recordSet acc k₀ (sanitizeValue v₀)) k = recordGet acc k :=
          recordGet_set_ne acc k₀ k _ (fun hc => hk hc.symm)
        rcases recordGet rest k with _ | v
        · exact hset
        · dsimp only
          by_cases hg : (k = "children" ∨ k = "id") ∨ v.isUndef = true
          · rw [if_pos hg, if_pos hg, hset]
          · rw [if_neg hg, if_neg hg]

/-- C2 counterexample: the raw identifier hint fields are not excluded
from `data` — only the child list and the field literally named `id` are.
On a raw node carrying all three hints, all three appear in the sanitized
data, contradicting the claim that they are all absent. -/
theorem sanitizeNodeData_keeps_identifier_fields :
    recordGet (sanitizeNodeData
        (.mk [("backendDOMNodeId", .num 7), ("nodeId", .num 3), ("axId", .str "a")] none))
        "backendDOMNodeId" = some (.num 7) ∧
      recordGet (sanitizeNodeData
        (.mk [("backendDOMNodeId", .num 7), ("nodeId", .num 3), ("axId", .str "a")] none))
        "nodeId" = some (.num 3) ∧
      recordGet (sanitizeNodeData
        (.mk [("backendDOMNodeId", .num 7), ("nodeId", .num 3), ("axId", .str "a")] none))
        "axId" = some (.str "a") :=
  ⟨rfl, rfl, rfl⟩

/-- C2 (amended): for every raw node (with duplicate-free property keys,
as for any JavaScript object), the sanitized `data` maps a key `k` to the
sanitized raw value at `k` unless `k` is the child list, the field
literally named `id`, or its raw value is `undefined`, in which cases (and
when `k` is absent) it is absent; in particular the identifier hint fields
`backendDOMNodeId`, `nodeId` and `axId` are copied into `data`. -/
theorem sanitizeNodeData_spec (node : TextSnapshotNode) (k : String)
    (hn : (recordKeys node.attrs).Nodup) :
    recordGet (sanitizeNodeData node) k =
      match recordGet node.attrs k with
      | some v =>
        if (k = "children" ∨ k = "id") ∨ v.isUndef then none
        else some (sanitizeValue v)
      | none => none := by
  have h := sanitizeNodeData_fold_get node.attrs [] k hn (by simp [recordKeys])
  rw [show sanitizeNodeData node = node.attrs.foldl
    (fun data p =>
      if p.1 = "children" ∨ p.1 = "id" then data
      else if p.2.isUndef then data
      else recordSet data p.1 (sanitizeValue p.2)) [] from rfl, h]
  rcases recordGet node.attrs k with _ | v
  · rfl
  · dsimp only
    by_cases hg : (k = "children" ∨ k = "id") ∨ v.isUndef = true
    · rw [if_pos hg, if_pos hg]
      rfl
    · rw [if_neg hg, if_neg hg]

/-- C2 witness: on a concrete node, `sanitizeNodeData_spec` yields the
sanitized value of an ordinary attribute while the field named `id` is
dropped. -/
theorem sanitizeNodeData_spec_witness :
    (recordKeys (TextSnapshotNode.mk
        [("id", .num 1), ("role", .str "button")] none).attrs).Nodup ∧
      recordGet (sanitizeNodeData
        (.mk [("id", .num 1), ("role", .str "button")] none)) "role" =
        some (.str "button") ∧
      recordGet (sanitizeNodeData
        (.mk [("id", .num 1), ("role", .str "button")] none)) "id" = none :=
  ⟨by decide,
   (sanitizeNodeData_spec (.mk [("id", .num 1), ("role", .str "button")] none)
     "role" (by decide)).trans rfl,
   (sanitizeNodeData_spec (.mk [("id", .num 1), ("role", .str "button")] none)
     "id" (by decide)).trans rfl⟩

/-! ### Claim C7 -/

theorem recordGet_mem_keys {α : Type} {l : List (String × α)} {k : String} {v : α}
    (h : recordGet l k = some v) : k ∈ recordKeys l := by
  by_contra hc
  rw [(recordGet_eq_none_iff l k).mpr hc] at h
  simp at h

theorem stableStringify_ne_none {v : JValue} (h : v ≠ .undef) :
    stableStringify v ≠ none := by
  cases v with
  | undef => exact absurd rfl h
  | null => simp [stableStringify, toComparable, jsonString]
  | bool b => simp [stableStringify, toComparable, jsonString]
  | num n => simp [stableStringify, toComparable, jsonString]
  | str s => simp [stableStringify, toComparable, jsonString]
  | arr items => simp [stableStringify, toComparable, jsonString]
  | obj fields => simp [stableStringify, toComparable, jsonString]

theorem areEqual_undef_left {v : JValue} (h : v ≠ .undef) :
    areEqual .undef v = false := by
  unfold areEqual
  rcases hs : stableStringify v with _ | s
  · exact absurd hs (stableStringify_ne_none h)
  · simp [stableStringify, toComparable, jsonString, hs]

theorem areEqual_undef_right {v : JValue} (h : v ≠ .undef) :
    areEqual v .undef = false := by
  unfold areEqual
  rcases hs : stableStringify v with _ | s
  · exact absurd hs (stableStringify_ne_none h)
  · simp [stableStringify, toComparable, jsonString, hs]

/-- C7: over the union of keys, a property present on only one side of the
node pair yields a change record whose absent side is `undefined` and whose
present side is the stored value. -/
theorem diffNode_union_key_coverage (baseline current : NormalizedAXNode)
    (k : String) (v : JValue) (hv : v ≠ .undef) :
    (recordGet current.data k = some v → recordGet baseline.data k = none →
      ({ property := k, before := .undef, after := v } : NodeChangeDetail) ∈
        diffNode baseline current) ∧
    (recordGet baseline.data k = some v → recordGet current.data k = none →
      ({ property := k, before := v, after := .undef } : NodeChangeDetail) ∈
        diffNode baseline current) := by
  constructor
  · intro hc hb
    have hkc : k ∈ recordKeys current.data := recordGet_mem_keys hc
    have hmem : k ∈ uniqueKeys (recordKeys baseline.data ++ recordKeys current.data) :=
      mem_uniqueKeys.mpr (List.mem_append.mpr (.inr hkc))
    refine List.mem_filterMap.mpr ⟨k, hmem, ?_⟩
    have hbv : jsField baseline.data k = .undef := by simp [jsField, hb]
    have hcv : jsField current.data k = v := by simp [jsField, hc]
    show (if areEqual (jsField baseline.data k) (jsField current.data k) then none
      else some ({ property := k, before := jsField baseline.data k,
                   after := jsField current.data k } : NodeChangeDetail)) =
      some { property := k, before := .undef, after := v }
    rw [hbv, hcv, areEqual_undef_left hv]
    rfl
  · intro hb hc
    have hkb : k ∈ recordKeys baseline.data := recordGet_mem_keys hb
    have hmem : k ∈ uniqueKeys (recordKeys baseline.data ++ recordKeys current.data) :=
      mem_uniqueKeys.mpr (List.mem_append.mpr (.inl hkb))
    refine List.mem_filterMap.mpr ⟨k, hmem, ?_⟩
    have hbv : jsField baseline.data k = v := by simp [jsField, hb]
    have hcv : jsField current.data k = .undef := by simp [jsField, hc]
    show (if areEqual (jsField baseline.data k) (jsField current.data k) then none
      else some ({ property := k, before := jsField baseline.data k,
                   after := jsField current.data k } : NodeChangeDetail)) =
      some { property := k, before := v, after := .undef }
    rw [hbv, hcv, areEqual_undef_right hv]
    rfl

/-- C7 witness: a `checked` attribute present only on the current side is
reported as `undefined -> "true"`. -/
theorem diffNode_union_key_coverage_witness :
    ({ property := "checked", before := .undef, after := .str "true" } : NodeChangeDetail) ∈
      diffNode
        { id := "btn", path := "0", role := some "button", name := none,
          data := [("pressed", .str "false")], parentId := none }
        { id := "btn", path := "0", role := some "button", name := none,
          data := [("pressed", .str "false"), ("checked", .str "true")], parentId := none } :=
  (diffNode_union_key_coverage
    { id := "btn", path := "0", role := some "button", name := none,
      data := [("pressed", .str "false")], parentId := none }
    { id := "btn", path := "0", role := some "button", name := none,
      data := [("pressed", .str "false"), ("checked", .str "true")], parentId := none }
    "checked" (.str "true") (nofun)).1 rfl rfl

/-! ### Claim C10 -/

/-- A snapshot whose node mapping keys each entry by the entry's own id —
an invariant of every snapshot the normalizer produces. -/
def WellKeyed (s : NormalizedSnapshot) : Prop :=
  ∀ p ∈ s.nodes, (p : String × NormalizedAXNode).2.id = p.1

theorem mem_added_ids {baseline current : NormalizedSnapshot} {i : String}
    (hc : WellKeyed current)
    (h : i ∈ (diffSnapshots baseline current).added.map NormalizedAXNode.id) :
    recordGet baseline.nodes i = none ∧ i ∈ recordKeys current.nodes := by
  rw [diffSnapshots_added, List.map_map] at h
  obtain ⟨p, hp, hid⟩ := List.mem_map.mp h
  obtain ⟨hpc, hq⟩ := List.mem_filter.mp hp
  have hki : p.1 = i := by
    rw [← hid]
    exact (hc p hpc).symm
  refine ⟨?_, ?_⟩
  · rw [← hki]
    exact Option.isNone_iff_eq_none.mp hq
  · rw [← hki]
    exact List.mem_map_of_mem Prod.fst hpc

theorem mem_removed_ids {baseline current : NormalizedSnapshot} {i : String}
    (hb : WellKeyed baseline)
    (h : i ∈ (diffSnapshots baseline current).removed.map NormalizedAXNode.id) :
    recordGet current.nodes i = none ∧ i ∈ recordKeys baseline.nodes := by
  rw [diffSnapshots_removed, List.map_map] at h
  obtain ⟨p, hp, hid⟩ := List.mem_map.mp h
  obtain ⟨hpb, hq⟩ := List.mem_filter.mp hp
  have hki : p.1 = i := by
    rw [← hid]
    exact (hb p hpb).symm
  refine ⟨?_, ?_⟩
  · rw [← hki]
    exact Option.isNone_iff_eq_none.mp hq
  · rw [← hki]
    exact List.mem_map_of_mem Prod.fst hpb

theorem mem_changed_elim {baseline current : NormalizedSnapshot} {ch : NodeChange}
    (h : ch ∈ (diffSnapshots baseline current).changed) :
    ∃ p ∈ current.nodes, ∃ previousNode, recordGet baseline.nodes p.1 = some previousNode ∧
      ch.id = p.1 ∧ ch.changes = diffNode previousNode p.2 ∧ ch.changes ≠ [] := by
  rw [diffSnapshots_changed] at h
  obtain ⟨p, hpc, hf⟩ := List.mem_filterMap.mp h
  rcases hg : recordGet baseline.nodes p.1 with _ | previousNode
  · rw [hg] at hf
    simp at hf
  · rw [hg] at hf
    dsimp only at hf
    by_cases he : (diffNode previousNode p.2).isEmpty
    · rw [if_pos he] at hf
      simp at hf
    · rw [if_neg he] at hf
      have hch := Option.some.inj hf
      refine ⟨p, hpc, previousNode, hg, ?_, ?_, ?_⟩
      · rw [← hch]
      · rw [← hch]
      · rw [← hch]
        simpa using he

/-- C10: the diff of any two well-keyed snapshots is well-formed: a node id
appears in at most one of the added, removed and changed lists, and every
changed entry carries a non-empty list of property changes. -/
theorem diffSnapshots_wellformed (baseline current : NormalizedSnapshot)
    (hb : WellKeyed baseline) (hc : WellKeyed current) :
    (∀ i : String,
      ¬(i ∈ (diffSnapshots baseline current).added.map NormalizedAXNode.id ∧
        i ∈ (diffSnapshots baseline current).removed.map NormalizedAXNode.id) ∧
      ¬(i ∈ (diffSnapshots baseline current).added.map NormalizedAXNode.id ∧
        i ∈ (diffSnapshots baseline current).changed.map NodeChange.id) ∧
      ¬(i ∈ (diffSnapshots baseline current).removed.map NormalizedAXNode.id ∧
        i ∈ (diffSnapshots baseline current).changed.map NodeChange.id)) ∧
    (∀ ch ∈ (diffSnapshots baseline current).changed, ch.changes ≠ []) := by
  constructor
  · intro i
    refine ⟨?_, ?_, ?_⟩
    · rintro ⟨ha, hr⟩
      obtain ⟨han, _⟩ := mem_added_ids hc ha
      obtain ⟨_, hrk⟩ := mem_removed_ids hb hr
      exact absurd han ((not_iff_not.mpr (recordGet_eq_none_iff baseline.nodes i)).mpr
        (not_not.mpr hrk))
    · rintro ⟨ha, hch⟩
      obtain ⟨han, _⟩ := mem_added_ids hc ha
      obtain ⟨ch, hchm, hchid⟩ := List.mem_map.mp hch
      obtain ⟨p, _, previousNode, hg, hid, _, _⟩ := mem_changed_elim hchm
      rw [hchid] at hid
      rw [hid, hg] at han
      simp at han
    · rintro ⟨hr, hch⟩
      obtain ⟨hrn, _⟩ := mem_removed_ids hb hr
      obtain ⟨ch, hchm, hchid⟩ := List.mem_map.mp hch
      obtain ⟨p, hpc, _, _, hid, _, _⟩ := mem_changed_elim hchm
      rw [hchid] at hid
      have : i ∈ recordKeys current.nodes := by
        rw [hid]
        exact List.mem_map_of_mem Prod.fst hpc
      exact absurd hrn ((not_iff_not.mpr (recordGet_eq_none_iff current.nodes i)).mpr
        (not_not.mpr this))
  · intro ch hch
    obtain ⟨_, _, _, _, _, _, hne⟩ := mem_changed_elim hch
    exact hne

/-- C10 witness: on two concrete well-keyed snapshots, the id `btn`
appears in the changed list only, not in both added and removed. -/
theorem diffSnapshots_wellformed_witness :
    ¬("btn" ∈ (diffSnapshots
        ⟨"t0", [("btn", { id := "btn", path := "0", role := some "button", name := none,
                          data := [("pressed", .str "false")], parentId := none })]⟩
        ⟨"t1", [("btn", { id := "btn", path := "0", role := some "button", name := none,
                          data := [("pressed", .str "true")], parentId := none })]⟩).added.map
          NormalizedAXNode.id ∧
      "btn" ∈ (diffSnapshots
        ⟨"t0", [("btn", { id := "btn", path := "0", role := some "button", name := none,
                          data := [("pressed", .str "false")], parentId := none })]⟩
        ⟨"t1", [("btn", { id := "btn", path := "0", role := some "button", name := none,
                          data := [("pressed", .str "true")], parentId := none })]⟩).removed.map
          NormalizedAXNode.id) :=
  ((diffSnapshots_wellformed
    ⟨"t0", [("btn", { id := "btn", path := "0", role := some "button", name := none,
                      data := [("pressed", .str "false")], parentId := none })]⟩
    ⟨"t1", [("btn", { id := "btn", path := "0", role := some "button", name := none,
                      data := [("pressed", .str "true")], parentId := none })]⟩
    (by intro p hp; simp at hp; rw [hp]
        )
    (by intro p hp; simp at hp; rw [hp]
        )).1 "btn").1

/-! ### Claim C8 -/

/-- C8: when the capture collaborator fails to produce a raw tree, the
handler reports an explicit failure message and leaves the baseline store
completely unchanged, whatever the arguments and store state. -/
theorem capture_failure_reports_and_preserves_store (params : ChangeSnapshotParams)
    (now : String) (store : List (String × NormalizedSnapshot)) :
    takeChangeSnapshot params none now store =
      ⟨["Unable to capture accessibility snapshot for the current page."], store⟩ := rfl

/-! ### Claim C9 -/

theorem recordSet_length_of_notMem {α : Type} (l : List (String × α)) (k : String)
    (v : α) (h : k ∉ recordKeys l) : (recordSet l k v).length = l.length + 1 := by
  have hlen := congrArg List.length (recordKeys_set_of_notMem l k v h)
  simpa [recordKeys] using hlen

/-- C9 counterexample: with `compareTo = "other"` absent from the store but
`baselineKey` (defaulted to `"default"`) already present, the handler still
reports baseline creation, yet the store gains no new entry — the existing
`default` entry is overwritten. -/
theorem baseline_creation_can_overwrite :
    (takeChangeSnapshot ⟨none, none, some "other"⟩ (some ⟨.mk [] none⟩) "t1"
        [("default", normalizeSnapshot ⟨.mk [] none⟩ "t0")]).lines =
      ["No baseline found for key \"other\". Created a baseline with the current snapshot."] ∧
    (takeChangeSnapshot ⟨none, none, some "other"⟩ (some ⟨.mk [] none⟩) "t1"
        [("default", normalizeSnapshot ⟨.mk [] none⟩ "t0")]).store.length =
      ([("default", normalizeSnapshot ⟨.mk [] none⟩ "t0")] :
        List (String × NormalizedSnapshot)).length :=
  ⟨rfl, rfl⟩

/-- C9 (amended): when the compare key has no stored baseline, the handler
stores the freshly normalized snapshot under the baseline key, reports that
a baseline was created, and emits no Added/Removed/Changed output; this
creates exactly one new store entry when the baseline key itself is absent
from the store (in particular whenever it equals the compare key), and
otherwise overwrites the entry already stored under the baseline key. -/
theorem baseline_created_when_absent (params : ChangeSnapshotParams)
    (snapshot : TextSnapshot) (now : String)
    (store : List (String × NormalizedSnapshot))
    (habs : recordGet store (jsStringOrDefault params.compareTo
      (jsStringOrDefault params.baselineKey "default")) = none) :
    takeChangeSnapshot params (some snapshot) now store =
      ⟨["No baseline found for key \"" ++
          jsStringOrDefault params.compareTo
            (jsStringOrDefault params.baselineKey "default") ++
          "\". Created a baseline with the current snapshot."],
        recordSet store (jsStringOrDefault params.baselineKey "default")
          (normalizeSnapshot snapshot now)⟩ ∧
    recordGet (takeChangeSnapshot params (some snapshot) now store).store
        (jsStringOrDefault params.baselineKey "default") =
      some (normalizeSnapshot snapshot now) ∧
    (jsStringOrDefault params.baselineKey "default" ∉ recordKeys store →
      (takeChangeSnapshot params (some snapshot) now store).store.length =
        store.length + 1) := by
  have hmain : takeChangeSnapshot params (some snapshot) now store =
      ⟨["No baseline found for key \"" ++
          jsStringOrDefault params.compareTo
            (jsStringOrDefault params.baselineKey "default") ++
          "\". Created a baseline with the current snapshot."],
        recordSet store (jsStringOrDefault params.baselineKey "default")
          (normalizeSnapshot snapshot now)⟩ := by
    simp only [takeChangeSnapshot]
    rw [habs]
  refine ⟨hmain, ?_, ?_⟩
  · rw [hmain]
    exact recordGet_set_same store _ _
  · intro hnot
    rw [hmain]
    exact recordSet_length_of_notMem store _ _ hnot

/-- C9 witness: creating a baseline in an empty store under the default
key adds exactly one entry holding the normalized capture. -/
theorem baseline_created_when_absent_witness :
    recordGet (takeChangeSnapshot ⟨none, none, none⟩ (some ⟨.mk [] none⟩) "t"
        []).store "default" = some (normalizeSnapshot ⟨.mk [] none⟩ "t") ∧
    (takeChangeSnapshot ⟨none, none, none⟩ (some ⟨.mk [] none⟩) "t" []).store.length =
      ([] : List (String × NormalizedSnapshot)).length + 1 :=
  ⟨(baseline_created_when_absent ⟨none, none, none⟩ ⟨.mk [] none⟩ "t" [] rfl).2.1,
   (baseline_created_when_absent ⟨none, none, none⟩ ⟨.mk [] none⟩ "t" [] rfl).2.2
     (by simp [recordKeys])⟩

/-! ### Claim C3 -/

/-- One invocation of the handler against a baseline whose node mapping
equals that of the fresh capture reports "no changes" and (by default)
replaces the stored baseline with the fresh normalized snapshot. -/
theorem takeChangeSnapshot_no_changes (params : ChangeSnapshotParams)
    (snapshot : TextSnapshot) (now : String)
    (store : List (String × NormalizedSnapshot)) (B : NormalizedSnapshot)
    (hcmp : params.compareTo = none)
    (hB : recordGet store (jsStringOrDefault params.baselineKey "default") = some B)
    (hnodes : B.nodes = (normalizeSnapshot snapshot now).nodes)
    (hrep : params.replaceBaseline.getD true = true) :
    takeChangeSnapshot params (some snapshot) now store =
      ⟨["No accessibility changes compared to baseline \"" ++
          jsStringOrDefault params.baselineKey "default" ++ "\"."],
        recordSet store (jsStringOrDefault params.baselineKey "default")
          (normalizeSnapshot snapshot now)⟩ := by
  have hdiff : diffSnapshots B (normalizeSnapshot snapshot now) =
      { added := [], removed := [], changed := [] } :=
    diffSnapshots_eq_nil_of_nodes_eq hnodes
      (hnodes ▸ normalizeSnapshot_keys_nodup snapshot now)
  have hnone : ∀ d : String, jsStringOrDefault none d = d := fun _ => rfl
  simp only [takeChangeSnapshot, hcmp, hnone]
  rw [hB]
  simp only [hdiff, hasSnapshotChanges, hrep]
  simp

/-- C3 counterexample: two consecutive identical captures of an unchanged
tree against an already-present baseline report no changes, yet the stored
snapshot is not byte-identical to the one stored before the call — its
`capturedAt` timestamp is refreshed. -/
theorem stored_baseline_not_byte_identical :
    (takeChangeSnapshot ⟨none, none, none⟩ (some ⟨.mk [("role", .str "x")] none⟩) "t1"
        [("default", normalizeSnapshot ⟨.mk [("role", .str "x")] none⟩ "t0")]).lines =
      ["No accessibility changes compared to baseline \"default\"."] ∧
    recordGet (takeChangeSnapshot ⟨none, none, none⟩
        (some ⟨.mk [("role", .str "x")] none⟩) "t1"
        [("default", normalizeSnapshot ⟨.mk [("role", .str "x")] none⟩ "t0")]).store
        "default" ≠
      recordGet [("default", normalizeSnapshot ⟨.mk [("role", .str "x")] none⟩ "t0")]
        "default" := by
  refine ⟨rfl, fun h => ?_⟩
  have h' : ("t1" : String) = "t0" :=
    congrArg (fun o => ((Option.map NormalizedSnapshot.capturedAt o).getD "")) h
  exact absurd h' (by decide)

/-- C3 (amended): invoking the change-snapshot operation twice in a row on
the same baseline key with identical raw captures of an unchanged tree
(baseline already present with the same node mapping, replace not opted
out) reports no changes both times, and the node mapping stored under the
key is unchanged after each invocation; only the stored `capturedAt`
timestamp is refreshed to that of the latest capture. -/
theorem repeated_identical_captures (params : ChangeSnapshotParams)
    (snapshot : TextSnapshot) (t1 t2 : String)
    (store : List (String × NormalizedSnapshot)) (B : NormalizedSnapshot)
    (hcmp : params.compareTo = none)
    (hB : recordGet store (jsStringOrDefault params.baselineKey "default") = some B)
    (hnodes : B.nodes = (normalizeSnapshot snapshot t1).nodes)
    (hrep : params.replaceBaseline.getD true = true) :
    (takeChangeSnapshot params (some snapshot) t1 store).lines =
      ["No accessibility changes compared to baseline \"" ++
        jsStringOrDefault params.baselineKey "default" ++ "\"."] ∧
    (takeChangeSnapshot params (some snapshot) t2
        (takeChangeSnapshot params (some snapshot) t1 store).store).lines =
      ["No accessibility changes compared to baseline \"" ++
        jsStringOrDefault params.baselineKey "default" ++ "\"."] ∧
    recordGet (takeChangeSnapshot params (some snapshot) t1 store).store
        (jsStringOrDefault params.baselineKey "default") =
      some (normalizeSnapshot snapshot t1) ∧
    recordGet (takeChangeSnapshot params (some snapshot) t2
        (takeChangeSnapshot params (some snapshot) t1 store).store).store
        (jsStringOrDefault params.baselineKey "default") =
      some (normalizeSnapshot snapshot t2) ∧
    (normalizeSnapshot snapshot t1).nodes = B.nodes ∧
    (normalizeSnapshot snapshot t2).nodes = B.nodes := by
  have h1 := takeChangeSnapshot_no_changes params snapshot t1 store B hcmp hB hnodes hrep
  have hB2 : recordGet (takeChangeSnapshot params (some snapshot) t1 store).store
      (jsStringOrDefault params.baselineKey "default") =
        some (normalizeSnapshot snapshot t1) := by
    rw [h1]
    exact recordGet_set_same store _ _
  have hnodes2 : (normalizeSnapshot snapshot t1).nodes =
      (normalizeSnapshot snapshot t2).nodes := rfl
  have h2 := takeChangeSnapshot_no_changes params snapshot t2
    (takeChangeSnapshot params (some snapshot) t1 store).store
    (normalizeSnapshot snapshot t1) hcmp hB2 hnodes2 hrep
  refine ⟨by rw [h1], by rw [h2], hB2, ?_, hnodes.symm, hnodes.symm⟩
  rw [h2]
  exact recordGet_set_same _ _ _

/-- C3 witness: concrete two-call scenario on a one-node tree with the
baseline pre-populated by an identical earlier capture. -/
theorem repeated_identical_captures_witness :
    (takeChangeSnapshot ⟨none, none, none⟩ (some ⟨.mk [("role", .str "x")] none⟩) "t1"
        [("default", normalizeSnapshot ⟨.mk [("role", .str "x")] none⟩ "t0")]).lines =
      ["No accessibility changes compared to baseline \"default\"."] ∧
    (takeChangeSnapshot ⟨none, none, none⟩ (some ⟨.mk [("role", .str "x")] none⟩) "t2"
        (takeChangeSnapshot ⟨none, none, none⟩ (some ⟨.mk [("role", .str "x")] none⟩) "t1"
          [("default", normalizeSnapshot ⟨.mk [("role", .str "x")] none⟩ "t0")]).store).lines =
      ["No accessibility changes compared to baseline \"default\"."] :=
  ⟨(repeated_identical_captures ⟨none, none, none⟩ ⟨.mk [("role", .str "x")] none⟩
      "t1" "t2" [("default", normalizeSnapshot ⟨.mk [("role", .str "x")] none⟩ "t0")]
      (normalizeSnapshot ⟨.mk [("role", .str "x")] none⟩ "t0") rfl rfl rfl rfl).1,
   (repeated_identical_captures ⟨none, none, none⟩ ⟨.mk [("role", .str "x")] none⟩
      "t1" "t2" [("default", normalizeSnapshot ⟨.mk [("role", .str "x")] none⟩ "t0")]
      (normalizeSnapshot ⟨.mk [("role", .str "x")] none⟩ "t0") rfl rfl rfl rfl).2.1⟩

/-! ### Claim C6 -/

theorem sortByKey_perm_eq {l₁ l₂ : List (String × JValue)} (hp : l₁.Perm l₂)
    (hn : (recordKeys l₁).Nodup) : sortByKey l₁ = sortByKey l₂ := by
  have p1 : (sortByKey l₁).Perm l₁ := List.perm_insertionSort keyLe l₁
  have p2 : (sortByKey l₂).Perm l₂ := List.perm_insertionSort keyLe l₂
  have p : (sortByKey l₁).Perm (sortByKey l₂) := p1.trans (hp.trans p2.symm)
  have s1 : List.Sorted keyLe (sortByKey l₁) := List.sorted_insertionSort keyLe l₁
  have s2 : List.Sorted keyLe (sortByKey l₂) := List.sorted_insertionSort keyLe l₂
  have hn1 : ((sortByKey l₁).map Prod.fst).Nodup := ((p1.map Prod.fst).nodup_iff).mpr hn
  have hn2 : ((sortByKey l₂).map Prod.fst).Nodup := by
    have hn' : (l₂.map Prod.fst).Nodup := ((hp.map Prod.fst).nodup_iff).mp hn
    exact ((p2.map Prod.fst).nodup_iff).mpr hn'
  have hq1 : List.Pairwise (fun a b : String × JValue => a.1 ≠ b.1) (sortByKey l₁) :=
    List.pairwise_map.mp hn1
  have hq2 : List.Pairwise (fun a b : String × JValue => a.1 ≠ b.1) (sortByKey l₂) :=
    List.pairwise_map.mp hn2
  have s1' : List.Sorted keyLt (sortByKey l₁) := (s1.and hq1).imp (fun h => h)
  have s2' : List.Sorted keyLt (sortByKey l₂) := (s2.and hq2).imp (fun h => h)
  exact List.eq_of_perm_of_sorted p s1' s2'

theorem sanitizeFields_eq_map : ∀ l : List (String × JValue),
    sanitizeFields l = l.map (fun p => (p.1, sanitizeValue p.2))
  | [] => rfl
  | (k, v) :: rest => by
    rw [sanitizeFields, List.map_cons, sanitizeFields_eq_map rest]

theorem sanitizeValue_obj_perm {f f' : List (String × JValue)} (hp : f.Perm f')
    (hn : (recordKeys f).Nodup) : sanitizeValue (.obj f) = sanitizeValue (.obj f') := by
  show JValue.obj (fromEntries (sortByKey (sanitizeFields f))) =
    JValue.obj (fromEntries (sortByKey (sanitizeFields f')))
  have hsf : sortByKey (sanitizeFields f) = sortByKey (sanitizeFields f') := by
    apply sortByKey_perm_eq
    · rw [sanitizeFields_eq_map, sanitizeFields_eq_map]
      exact hp.map _
    · rw [sanitizeFields_eq_map]
      show ((f.map (fun p => (p.1, sanitizeValue p.2))).map Prod.fst).Nodup
      rw [List.map_map]
      exact hn
  rw [hsf]

theorem recordGet_middle_obj (pre post : List (String × JValue)) (a : String)
    (f f' : List (String × JValue)) (k : String) :
    recordGet (pre ++ (a, JValue.obj f) :: post) k =
      recordGet (pre ++ (a, JValue.obj f') :: post) k ∨
    (recordGet (pre ++ (a, JValue.obj f) :: post) k = some (.obj f) ∧
     recordGet (pre ++ (a, JValue.obj f') :: post) k = some (.obj f')) := by
  induction pre with
  | nil =>
    by_cases h : a = k
    · right
      constructor <;> simp [recordGet, h]
    · left
      simp [recordGet, h]
  | cons p pre' ih =>
    by_cases h : p.1 = k
    · left
      simp [recordGet, h]
    · rcases ih with h' | h'
      · left
        simpa [recordGet, h] using h'
      · right
        simpa [recordGet, h] using h'

theorem getStableNodeId_congr (attrs₁ attrs₂ : List (String × JValue))
    (cs₁ cs₂ : Option (List TextSnapshotNode)) (path : String)
    (h : ∀ k, recordGet attrs₁ k = recordGet attrs₂ k ∨
      ∃ f f', recordGet attrs₁ k = some (.obj f) ∧ recordGet attrs₂ k = some (.obj f')) :
    getStableNodeId (.mk attrs₁ cs₁) path = getStableNodeId (.mk attrs₂ cs₂) path := by
  have e1 : (match recordGet attrs₁ "backendDOMNodeId" with
      | some (.num n) => ["backend:" ++ toString n]
      | _ => ([] : List String)) =
      (match recordGet attrs₂ "backendDOMNodeId" with
      | some (.num n) => ["backend:" ++ toString n]
      | _ => []) := by
    rcases h "backendDOMNodeId" with h' | ⟨f, f', hf, hf'⟩
    · rw [h']
    · rw [hf, hf']
  have e2 : (match recordGet attrs₁ "nodeId" with
      | some (.num n) => ["node:" ++ toString n]
      | _ => ([] : List String)) =
      (match recordGet attrs₂ "nodeId" with
      | some (.num n) => ["node:" ++ toString n]
      | _ => []) := by
    rcases h "nodeId" with h' | ⟨f, f', hf, hf'⟩
    · rw [h']
    · rw [hf, hf']
  have e3 : (match recordGet attrs₁ "axId" with
      | some (.str s) => ["ax:" ++ s]
      | _ => ([] : List String)) =
      (match recordGet attrs₂ "axId" with
      | some (.str s) => ["ax:" ++ s]
      | _ => []) := by
    rcases h "axId" with h' | ⟨f, f', hf, hf'⟩
    · rw [h']
    · rw [hf, hf']
  simp only [getStableNodeId, TextSnapshotNode.attrs]
  rw [e1, e2, e3]

theorem sanitizeNodeData_congr_obj_attr (pre post : List (String × JValue)) (a : String)
    {f f' : List (String × JValue)} (cs₁ cs₂ : Option (List TextSnapshotNode))
    (hp : f.Perm f') (hn : (recordKeys f).Nodup) :
    sanitizeNodeData (.mk (pre ++ (a, .obj f) :: post) cs₁) =
      sanitizeNodeData (.mk (pre ++ (a, .obj f') :: post) cs₂) := by
  simp only [sanitizeNodeData, TextSnapshotNode.attrs]
  rw [List.foldl_append, List.foldl_append, List.foldl_cons, List.foldl_cons]
  have hmid : ∀ acc : List (String × JValue),
      (if a = "children" ∨ a = "id" then acc
       else if (JValue.obj f).isUndef then acc
       else recordSet acc a (sanitizeValue (.obj f))) =
      (if a = "children" ∨ a = "id" then acc
       else if (JValue.obj f').isUndef then acc
       else recordSet acc a (sanitizeValue (.obj f'))) := by
    intro acc
    by_cases hg : a = "children" ∨ a = "id"
    · rw [if_pos hg, if_pos hg]
    · rw [if_neg hg, if_neg hg]
      show recordSet acc a (sanitizeValue (.obj f)) = recordSet acc a (sanitizeValue (.obj f'))
      rw [sanitizeValue_obj_perm hp hn]
  rw [hmid]

/-- Two raw trees that differ only in the key insertion order of one
object-valued attribute of one node: `here` permutes the entry list of the
attribute `a` of the node itself (duplicate-free keys, as for any
JavaScript object literal), `child` pushes the difference into one child. -/
inductive KeyOrderDiff : TextSnapshotNode → TextSnapshotNode → Prop
  | here (pre post : List (String × JValue)) (a : String)
      (f f' : List (String × JValue)) (cs : Option (List TextSnapshotNode))
      (hp : f.Perm f') (hn : (recordKeys f).Nodup) :
      KeyOrderDiff (.mk (pre ++ (a, .obj f) :: post) cs)
        (.mk (pre ++ (a, .obj f') :: post) cs)
  | child (attrs : List (String × JValue)) (pre post : List TextSnapshotNode)
      (c c' : TextSnapshotNode) (h : KeyOrderDiff c c') :
      KeyOrderDiff (.mk attrs (some (pre ++ c :: post)))
        (.mk attrs (some (pre ++ c' :: post)))

/-- The normalized node `traverse` builds for one raw node. -/
def normalizedOf (node : TextSnapshotNode) (path : String)
    (parentId : Option String) : NormalizedAXNode :=
  let data := sanitizeNodeData node
  { id := getStableNodeId node path
    path := path
    role := match recordGet data "role" with
      | some (.str s) => some s
      | _ => none
    name := match recordGet data "name" with
      | some (.str s) => some s
      | some v => normalizeName v
      | none => none
    data := data
    parentId := parentId }

theorem traverse_unfold (node : TextSnapshotNode) (ps : List String)
    (parent : Option String) (nodes : List (String × NormalizedAXNode)) :
    traverse node ps parent nodes =
      match node.children with
      | none => recordSet nodes (getStableNodeId node (joinSep "." ps))
          (normalizedOf node (joinSep "." ps) parent)
      | some cs => traverseChildren cs ps (getStableNodeId node (joinSep "." ps)) 0
          (recordSet nodes (getStableNodeId node (joinSep "." ps))
            (normalizedOf node (joinSep "." ps) parent)) := by
  cases node with
  | mk attrs children => cases children <;> rfl

theorem normalizedOf_congr {n₁ n₂ : TextSnapshotNode} (path : String)
    (parent : Option String) (hid : getStableNodeId n₁ path = getStableNodeId n₂ path)
    (hdata : sanitizeNodeData n₁ = sanitizeNodeData n₂) :
    normalizedOf n₁ path parent = normalizedOf n₂ path parent := by
  unfold normalizedOf
  rw [hid, hdata]

theorem traverseChildren_congr (c c' : TextSnapshotNode)
    (ih : ∀ ps parent init, traverse c ps parent init = traverse c' ps parent init) :
    ∀ (pre post : List TextSnapshotNode) (ps : List String) (pid : String)
      (idx : Nat) (init : List (String × NormalizedAXNode)),
    traverseChildren (pre ++ c :: post) ps pid idx init =
      traverseChildren (pre ++ c' :: post) ps pid idx init := by
  intro pre
  induction pre with
  | nil =>
    intro post ps pid idx init
    simp only [List.nil_append, traverseChildren]
    rw [ih]
  | cons p pre' ihp =>
    intro post ps pid idx init
    simp only [List.cons_append, traverseChildren]
    exact ihp post ps pid (idx + 1) _

theorem traverse_congr_of_keyOrderDiff {n₁ n₂ : TextSnapshotNode}
    (h : KeyOrderDiff n₁ n₂) :
    ∀ (ps : List String) (parent : Option String)
      (init : List (String × NormalizedAXNode)),
    traverse n₁ ps parent init = traverse n₂ ps parent init := by
  induction h with
  | here pre post a f f' cs hp hn =>
    intro ps parent init
    have hid : getStableNodeId (.mk (pre ++ (a, .obj f) :: post) cs) (joinSep "." ps) =
        getStableNodeId (.mk (pre ++ (a, .obj f') :: post) cs) (joinSep "." ps) :=
      getStableNodeId_congr _ _ cs cs _ (fun k => by
        rcases recordGet_middle_obj pre post a f f' k with h' | ⟨h1, h2⟩
        · exact .inl h'
        · exact .inr ⟨f, f', h1, h2⟩)
    have hdata : sanitizeNodeData (.mk (pre ++ (a, .obj f) :: post) cs) =
        sanitizeNodeData (.mk (pre ++ (a, .obj f') :: post) cs) :=
      sanitizeNodeData_congr_obj_attr pre post a cs cs hp hn
    rw [traverse_unfold, traverse_unfold]
    simp only [TextSnapshotNode.children]
    rw [hid, normalizedOf_congr _ parent hid hdata]
  | child attrs pre post c c' _ ih =>
    intro ps parent init
    rw [traverse_unfold, traverse_unfold]
    simp only [TextSnapshotNode.children]
    exact traverseChildren_congr c c' ih pre post ps _ 0 _

/-- C6: for every pair of raw trees that differ only in the key insertion
order of some object-valued attribute of some node, the two normalizations
produce identical node mappings (in particular canonically equal `data`
for the affected node), and diffing them produces no Changed entry — the
whole diff is empty. -/
theorem keyOrder_no_spurious_diff (s₁ s₂ : TextSnapshot) (c₁ c₂ : String)
    (h : KeyOrderDiff s₁.root s₂.root) :
    (normalizeSnapshot s₁ c₁).nodes = (normalizeSnapshot s₂ c₂).nodes ∧
    diffSnapshots (normalizeSnapshot s₁ c₁) (normalizeSnapshot s₂ c₂) =
      { added := [], removed := [], changed := [] } := by
  have hnodes : (normalizeSnapshot s₁ c₁).nodes = (normalizeSnapshot s₂ c₂).nodes :=
    traverse_congr_of_keyOrderDiff h ["0"] none []
  exact ⟨hnodes, diffSnapshots_eq_nil_of_nodes_eq hnodes
    (normalizeSnapshot_keys_nodup s₂ c₂)⟩

/-- C6 witness: reordering the keys of an object-valued `value` attribute
yields identical normalizations and an empty diff. -/
theorem keyOrder_no_spurious_diff_witness :
    (normalizeSnapshot ⟨.mk [("value", .obj [("a", .num 1), ("b", .num 2)])] none⟩ "t1").nodes =
      (normalizeSnapshot ⟨.mk [("value", .obj [("b", .num 2), ("a", .num 1)])] none⟩ "t2").nodes ∧
    diffSnapshots
        (normalizeSnapshot ⟨.mk [("value", .obj [("a", .num 1), ("b", .num 2)])] none⟩ "t1")
        (normalizeSnapshot ⟨.mk [("value", .obj [("b", .num 2), ("a", .num 1)])] none⟩ "t2") =
      { added := [], removed := [], changed := [] } :=
  keyOrder_no_spurious_diff
    ⟨.mk [("value", .obj [("a", .num 1), ("b", .num 2)])] none⟩
    ⟨.mk [("value", .obj [("b", .num 2), ("a", .num 1)])] none⟩ "t1" "t2"
    (KeyOrderDiff.here [] [] "value" [("a", .num 1), ("b", .num 2)]
      [("b", .num 2), ("a", .num 1)] none
      (List.Perm.swap (("b", JValue.num 2) : String × JValue) ("a", JValue.num 1) [])
      (by decide))

/-! ### Claim C1 -/

/-- Whether a raw node carries any identity hint recognized by
`getStableNodeId`. -/
def hasIdentityHint (attrs : List (String × JValue)) : Bool :=
  (match recordGet attrs "backendDOMNodeId" with
   | some (.num _) => true
   | _ => false) ||
  (match recordGet attrs "nodeId" with
   | some (.num _) => true
   | _ => false) ||
  (match recordGet attrs "axId" with
   | some (.str _) => true
   | _ => false)

theorem getStableNodeId_no_hint (attrs : List (String × JValue))
    (cs : Option (List TextSnapshotNode)) (path : String)
    (h : hasIdentityHint attrs = false) :
    getStableNodeId (.mk attrs cs) path = "path:" ++ path := by
  unfold hasIdentityHint at h
  simp only [Bool.or_eq_false_iff] at h
  obtain ⟨⟨e1, e2⟩, e3⟩ := h
  have l1 : (match recordGet attrs "backendDOMNodeId" with
      | some (.num n) => ["backend:" ++ toString n]
      | _ => ([] : List String)) = [] := by
    rcases hg : recordGet attrs "backendDOMNodeId" with _ | v
    · rfl
    · rw [hg] at e1
      cases v <;> simp_all
  have l2 : (match recordGet attrs "nodeId" with
      | some (.num n) => ["node:" ++ toString n]
      | _ => ([] : List String)) = [] := by
    rcases hg : recordGet attrs "nodeId" with _ | v
    · rfl
    · rw [hg] at e2
      cases v <;> simp_all
  have l3 : (match recordGet attrs "axId" with
      | some (.str s) => ["ax:" ++ s]
      | _ => ([] : List String)) = [] := by
    rcases hg : recordGet attrs "axId" with _ | v
    · rfl
    · rw [hg] at e3
      cases v <;> simp_all
  simp only [getStableNodeId, TextSnapshotNode.attrs]
  rw [l1, l2, l3]
  rfl

theorem joinSep_head_data (sep : String) (x : String) (xs : List String) :
    ∃ t, (joinSep sep (x :: xs)).data = x.data ++ t := by
  cases xs with
  | nil => exact ⟨[], by simp [joinSep]⟩
  | cons y ys =>
    refine ⟨(sep ++ joinSep sep (y :: ys)).data, ?_⟩
    show (x ++ sep ++ joinSep sep (y :: ys)).data = _
    simp [String.data_append]

theorem joined_id_shape (m1 m2 m3 : List String) (path : String)
    (h1 : ∀ x ∈ m1, ∃ r, x.data = 'b' :: r)
    (h2 : ∀ x ∈ m2, ∃ r, x.data = 'n' :: r)
    (h3 : ∀ x ∈ m3, ∃ r, x.data = 'a' :: r) :
    (if (m1 ++ m2 ++ m3).isEmpty then "path:" ++ path
      else joinSep "|" (m1 ++ m2 ++ m3)) = "path:" ++ path ∨
    (∃ r, ((if (m1 ++ m2 ++ m3).isEmpty then "path:" ++ path
      else joinSep "|" (m1 ++ m2 ++ m3)).data = 'b' :: r)) ∨
    (∃ r, ((if (m1 ++ m2 ++ m3).isEmpty then "path:" ++ path
      else joinSep "|" (m1 ++ m2 ++ m3)).data = 'n' :: r)) ∨
    (∃ r, ((if (m1 ++ m2 ++ m3).isEmpty then "path:" ++ path
      else joinSep "|" (m1 ++ m2 ++ m3)).data = 'a' :: r)) := by
  rcases hl : m1 ++ m2 ++ m3 with _ | ⟨x, xs⟩
  · left
    rfl
  · right
    have hx : x ∈ m1 ++ m2 ++ m3 := by
      rw [hl]
      exact List.mem_cons_self x xs
    obtain ⟨t, ht⟩ := joinSep_head_data "|" x xs
    simp only [List.isEmpty_cons, Bool.false_eq_true, if_false]
    rcases List.mem_append.mp hx with hx' | hx3
    · rcases List.mem_append.mp hx' with hx1 | hx2
      · obtain ⟨r, hr⟩ := h1 x hx1
        exact .inl ⟨r ++ t, by rw [ht, hr]; rfl⟩
      · obtain ⟨r, hr⟩ := h2 x hx2
        exact .inr (.inl ⟨r ++ t, by rw [ht, hr]; rfl⟩)
    · obtain ⟨r, hr⟩ := h3 x hx3
      exact .inr (.inr ⟨r ++ t, by rw [ht, hr]; rfl⟩)

theorem getStableNodeId_shape (node : TextSnapshotNode) (path : String) :
    getStableNodeId node path = "path:" ++ path ∨
    (∃ r, (getStableNodeId node path).data = 'b' :: r) ∨
    (∃ r, (getStableNodeId node path).data = 'n' :: r) ∨
    (∃ r, (getStableNodeId node path).data = 'a' :: r) := by
  have hb : ∀ x ∈ (match recordGet node.attrs "backendDOMNodeId" with
      | some (.num n) => ["backend:" ++ toString n]
      | _ => ([] : List String)), ∃ r, x.data = 'b' :: r := by
    intro x hx
    rcases hg : recordGet node.attrs "backendDOMNodeId" with _ | v
    · rw [hg] at hx
      simp at hx
    · rw [hg] at hx
      cases v
      case num n =>
        rw [List.mem_singleton] at hx
        subst hx
        exact ⟨_, rfl⟩
      all_goals simp at hx
  have hn : ∀ x ∈ (match recordGet node.attrs "nodeId" with
      | some (.num n) => ["node:" ++ toString n]
      | _ => ([] : List String)), ∃ r, x.data = 'n' :: r := by
    intro x hx
    rcases hg : recordGet node.attrs "nodeId" with _ | v
    · rw [hg] at hx
      simp at hx
    · rw [hg] at hx
      cases v
      case num n =>
        rw [List.mem_singleton] at hx
        subst hx
        exact ⟨_, rfl⟩
      all_goals simp at hx
  have ha : ∀ x ∈ (match recordGet node.attrs "axId" with
      | some (.str s) => ["ax:" ++ s]
      | _ => ([] : List String)), ∃ r, x.data = 'a' :: r := by
    intro x hx
    rcases hg : recordGet node.attrs "axId" with _ | v
    · rw [hg] at hx
      simp at hx
    · rw [hg] at hx
      cases v
      case str s =>
        rw [List.mem_singleton] at hx
        subst hx
        exact ⟨_, rfl⟩
      all_goals simp at hx
  simp only [getStableNodeId]
  exact joined_id_shape _ _ _ path hb hn ha

theorem recordSet_eq_append {α : Type} (l : List (String × α)) (k : String) (v : α)
    (h : k ∉ recordKeys l) : recordSet l k v = l ++ [(k, v)] := by
  induction l with
  | nil => rfl
  | cons p rest ih =>
    simp only [recordKeys, List.map_cons, List.mem_cons, not_or] at h
    simp only [recordSet, if_neg (fun hc : p.1 = k => h.1 hc.symm), List.cons_append]
    rw [ih (by simpa [recordKeys] using h.2)]

theorem diffNode_ne_nil_of_areEqual_false (b c : NormalizedAXNode) (k : String)
    (hk : areEqual (jsField b.data k) (jsField c.data k) = false) :
    diffNode b c ≠ [] := by
  have hmem : k ∈ uniqueKeys (recordKeys b.data ++ recordKeys c.data) := by
    by_contra hc
    rw [mem_uniqueKeys, List.mem_append] at hc
    push_neg at hc
    have h1 : recordGet b.data k = none := (recordGet_eq_none_iff _ _).mpr hc.1
    have h2 : recordGet c.data k = none := (recordGet_eq_none_iff _ _).mpr hc.2
    rw [show jsField b.data k = .undef from by simp [jsField, h1],
        show jsField c.data k = .undef from by simp [jsField, h2]] at hk
    exact absurd hk (by simp [areEqual])
  intro hnil
  have hin : ({ property := k, before := jsField b.data k,
                after := jsField c.data k } : NodeChangeDetail) ∈ diffNode b c := by
    refine List.mem_filterMap.mpr ⟨k, hmem, ?_⟩
    show (if areEqual (jsField b.data k) (jsField c.data k) then none
      else some ({ property := k, before := jsField b.data k,
                   after := jsField c.data k } : NodeChangeDetail)) = some _
    simp [hk]
  rw [hnil] at hin
  simp at hin

/-- C1 counterexample: swapping two leaf siblings with no identity hints
(path-only identity) and distinct names is reported as two Changed entries
with zero Added and zero Removed nodes — not as "at least one Removed and
one Added". -/
theorem sibling_swap_not_added_removed :
    (diffSnapshots
      (normalizeSnapshot ⟨.mk [("role", .str "list")]
        (some [.mk [("name", .str "a")] none, .mk [("name", .str "b")] none])⟩ "t1")
      (normalizeSnapshot ⟨.mk [("role", .str "list")]
        (some [.mk [("name", .str "b")] none, .mk [("name", .str "a")] none])⟩ "t2")).added = [] ∧
    (diffSnapshots
      (normalizeSnapshot ⟨.mk [("role", .str "list")]
        (some [.mk [("name", .str "a")] none, .mk [("name", .str "b")] none])⟩ "t1")
      (normalizeSnapshot ⟨.mk [("role", .str "list")]
        (some [.mk [("name", .str "b")] none, .mk [("name", .str "a")] none])⟩ "t2")).removed = [] ∧
    (diffSnapshots
      (normalizeSnapshot ⟨.mk [("role", .str "list")]
        (some [.mk [("name", .str "a")] none, .mk [("name", .str "b")] none])⟩ "t1")
      (normalizeSnapshot ⟨.mk [("role", .str "list")]
        (some [.mk [("name", .str "b")] none, .mk [("name", .str "a")] none])⟩ "t2")).changed.length = 2 :=
  ⟨rfl, rfl, rfl⟩


/-- C1 (amended): for a tree whose two leaf sibling children carry no
identity hints (so both fall back to path-based identity), diffing the
normalized snapshot of the original tree against the normalized snapshot
of the tree with the two siblings swapped reports no Added and no Removed
node; when some attribute of the two siblings differs canonically the diff
contains at least one Changed entry — the reorder is reported as Changed,
never as one removal plus one addition. -/
theorem sibling_swap_reported_as_changed
    (ra attrsA attrsB : List (String × JValue)) (k tA tB : String)
    (hA : hasIdentityHint attrsA = false)
    (hB : hasIdentityHint attrsB = false)
    (hk : areEqual (jsField (sanitizeNodeData (.mk attrsA none)) k)
      (jsField (sanitizeNodeData (.mk attrsB none)) k) = false) :
    (diffSnapshots
      (normalizeSnapshot ⟨.mk ra (some [.mk attrsA none, .mk attrsB none])⟩ tA)
      (normalizeSnapshot ⟨.mk ra (some [.mk attrsB none, .mk attrsA none])⟩ tB)).added = [] ∧
    (diffSnapshots
      (normalizeSnapshot ⟨.mk ra (some [.mk attrsA none, .mk attrsB none])⟩ tA)
      (normalizeSnapshot ⟨.mk ra (some [.mk attrsB none, .mk attrsA none])⟩ tB)).removed = [] ∧
    (diffSnapshots
      (normalizeSnapshot ⟨.mk ra (some [.mk attrsA none, .mk attrsB none])⟩ tA)
      (normalizeSnapshot ⟨.mk ra (some [.mk attrsB none, .mk attrsA none])⟩ tB)).changed ≠ [] := by
  have hid₀ : getStableNodeId (.mk ra (some [.mk attrsA none, .mk attrsB none])) "0" ≠
        "path:0.0" ∧
      getStableNodeId (.mk ra (some [.mk attrsA none, .mk attrsB none])) "0" ≠
        "path:0.1" := by
    rcases getStableNodeId_shape (.mk ra (some [.mk attrsA none, .mk attrsB none])) "0"
      with h | ⟨r, h⟩ | ⟨r, h⟩ | ⟨r, h⟩
    · rw [h]
      exact ⟨by decide, by decide⟩
    all_goals
      constructor <;>
        (intro hc
         rw [hc] at h
         exact absurd (Option.some.inj (congrArg List.head? h)) (by decide))
  have hm1 : "path:0.0" ∉ recordKeys
      [(getStableNodeId (.mk ra (some [.mk attrsA none, .mk attrsB none])) "0",
        normalizedOf (.mk ra (some [.mk attrsA none, .mk attrsB none])) "0" none)] := by
    simp only [recordKeys, List.map_cons, List.map_nil, List.mem_singleton]
    exact fun hc => hid₀.1 hc.symm
  have hm2 : ∀ x : NormalizedAXNode, "path:0.1" ∉ recordKeys
      ([(getStableNodeId (.mk ra (some [.mk attrsA none, .mk attrsB none])) "0",
         normalizedOf (.mk ra (some [.mk attrsA none, .mk attrsB none])) "0" none)] ++
       [("path:0.0", x)]) := by
    intro x
    simp only [recordKeys, List.map_append, List.map_cons, List.map_nil,
      List.mem_append, List.mem_singleton, not_or]
    exact ⟨fun hc => hid₀.2 hc.symm, by decide⟩
  have e1 : (normalizeSnapshot
      ⟨.mk ra (some [.mk attrsA none, .mk attrsB none])⟩ tA).nodes =
      [(getStableNodeId (.mk ra (some [.mk attrsA none, .mk attrsB none])) "0",
          normalizedOf (.mk ra (some [.mk attrsA none, .mk attrsB none])) "0" none),
       ("path:0.0", normalizedOf (.mk attrsA none) "0.0"
          (some (getStableNodeId (.mk ra (some [.mk attrsA none, .mk attrsB none])) "0"))),
       ("path:0.1", normalizedOf (.mk attrsB none) "0.1"
          (some (getStableNodeId (.mk ra (some [.mk attrsA none, .mk attrsB none])) "0")))] := by
    show recordSet (recordSet
      [(getStableNodeId (.mk ra (some [.mk attrsA none, .mk attrsB none])) "0",
        normalizedOf (.mk ra (some [.mk attrsA none, .mk attrsB none])) "0" none)]
      (getStableNodeId (.mk attrsA none) "0.0")
      (normalizedOf (.mk attrsA none) "0.0"
        (some (getStableNodeId (.mk ra (some [.mk attrsA none, .mk attrsB none])) "0"))))
      (getStableNodeId (.mk attrsB none) "0.1")
      (normalizedOf (.mk attrsB none) "0.1"
        (some (getStableNodeId (.mk ra (some [.mk attrsA none, .mk attrsB none])) "0"))) = _
    rw [getStableNodeId_no_hint attrsA none "0.0" hA,
        getStableNodeId_no_hint attrsB none "0.1" hB]
    show recordSet (recordSet
      [(getStableNodeId (.mk ra (some [.mk attrsA none, .mk attrsB none])) "0",
        normalizedOf (.mk ra (some [.mk attrsA none, .mk attrsB none])) "0" none)]
      "path:0.0"
      (normalizedOf (.mk attrsA none) "0.0"
        (some (getStableNodeId (.mk ra (some [.mk attrsA none, .mk attrsB none])) "0"))))
      "path:0.1"
      (normalizedOf (.mk attrsB none) "0.1"
        (some (getStableNodeId (.mk ra (some [.mk attrsA none, .mk attrsB none])) "0"))) = _
    rw [recordSet_eq_append _ "path:0.0" _ hm1,
        recordSet_eq_append _ "path:0.1" _ (hm2 _)]
    rfl
  have e2 : (normalizeSnapshot
      ⟨.mk ra (some [.mk attrsB none, .mk attrsA none])⟩ tB).nodes =
      [(getStableNodeId (.mk ra (some [.mk attrsA none, .mk attrsB none])) "0",
          normalizedOf (.mk ra (some [.mk attrsA none, .mk attrsB none])) "0" none),
       ("path:0.0", normalizedOf (.mk attrsB none) "0.0"
          (some (getStableNodeId (.mk ra (some [.mk attrsA none, .mk attrsB none])) "0"))),
       ("path:0.1", normalizedOf (.mk attrsA none) "0.1"
          (some (getStableNodeId (.mk ra (some [.mk attrsA none, .mk attrsB none])) "0")))] := by
    show recordSet (recordSet
      [(getStableNodeId (.mk ra (some [.mk attrsA none, .mk attrsB none])) "0",
        normalizedOf (.mk ra (some [.mk attrsA none, .mk attrsB none])) "0" none)]
      (getStableNodeId (.mk attrsB none) "0.0")
      (normalizedOf (.mk attrsB none) "0.0"
        (some (getStableNodeId (.mk ra (some [.mk attrsA none, .mk attrsB none])) "0"))))
      (getStableNodeId (.mk attrsA none) "0.1")
      (normalizedOf (.mk attrsA none) "0.1"
        (some (getStableNodeId (.mk ra (some [.mk attrsA none, .mk attrsB none])) "0"))) = _
    rw [getStableNodeId_no_hint attrsB none "0.0" hB,
        getStableNodeId_no_hint attrsA none "0.1" hA]
    show recordSet (recordSet
      [(getStableNodeId (.mk ra (some [.mk attrsA none, .mk attrsB none])) "0",
        normalizedOf (.mk ra (some [.mk attrsA none, .mk attrsB none])) "0" none)]
      "path:0.0"
      (normalizedOf (.mk attrsB none) "0.0"
        (some (getStableNodeId (.mk ra (some [.mk attrsA none, .mk attrsB none])) "0"))))
      "path:0.1"
      (normalizedOf (.mk attrsA none) "0.1"
        (some (getStableNodeId (.mk ra (some [.mk attrsA none, .mk attrsB none])) "0"))) = _
    rw [recordSet_eq_append _ "path:0.0" _ hm1,
        recordSet_eq_append _ "path:0.1" _ (hm2 _)]
    rfl
  have hne01 : ("path:0.0" : String) ≠ "path:0.1" := by decide
  refine ⟨?_, ?_, ?_⟩
  · rw [diffSnapshots_added, e1, e2]
    simp [recordGet, hid₀.1, hid₀.2, hne01, hne01.symm]
  · rw [diffSnapshots_removed, e1, e2]
    simp [recordGet, hid₀.1, hid₀.2, hne01, hne01.symm]
  · rw [diffSnapshots_changed, e1, e2]
    have hget : recordGet
        [(getStableNodeId (.mk ra (some [.mk attrsA none, .mk attrsB none])) "0",
            normalizedOf (.mk ra (some [.mk attrsA none, .mk attrsB none])) "0" none),
         ("path:0.0", normalizedOf (.mk attrsA none) "0.0"
            (some (getStableNodeId (.mk ra (some [.mk attrsA none, .mk attrsB none])) "0"))),
         ("path:0.1", normalizedOf (.mk attrsB none) "0.1"
            (some (getStableNodeId (.mk ra (some [.mk attrsA none, .mk attrsB none])) "0")))]
        "path:0.0" =
        some (normalizedOf (.mk attrsA none) "0.0"
          (some (getStableNodeId (.mk ra (some [.mk attrsA none, .mk attrsB none])) "0"))) := by
      simp [recordGet, hid₀.1]
    have hdne : diffNode
        (normalizedOf (.mk attrsA none) "0.0"
          (some (getStableNodeId (.mk ra (some [.mk attrsA none, .mk attrsB none])) "0")))
        (normalizedOf (.mk attrsB none) "0.0"
          (some (getStableNodeId (.mk ra (some [.mk attrsA none, .mk attrsB none])) "0"))) ≠
        [] :=
      diffNode_ne_nil_of_areEqual_false _ _ k hk
    have hie : (diffNode
        (normalizedOf (.mk attrsA none) "0.0"
          (some (getStableNodeId (.mk ra (some [.mk attrsA none, .mk attrsB none])) "0")))
        (normalizedOf (.mk attrsB none) "0.0"
          (some (getStableNodeId (.mk ra (some [.mk attrsA none, .mk attrsB none])) "0")))).isEmpty =
        false := by
      rcases hd : diffNode
        (normalizedOf (.mk attrsA none) "0.0"
          (some (getStableNodeId (.mk ra (some [.mk attrsA none, .mk attrsB none])) "0")))
        (normalizedOf (.mk attrsB none) "0.0"
          (some (getStableNodeId (.mk ra (some [.mk attrsA none, .mk attrsB none])) "0")))
        with _ | ⟨a, l⟩
      · exact absurd hd hdne
      · rfl
    have hsome : ∃ ch : NodeChange,
        (match recordGet
          [(getStableNodeId (.mk ra (some [.mk attrsA none, .mk attrsB none])) "0",
              normalizedOf (.mk ra (some [.mk attrsA none, .mk attrsB none])) "0" none),
           ("path:0.0", normalizedOf (.mk attrsA none) "0.0"
              (some (getStableNodeId (.mk ra (some [.mk attrsA none, .mk attrsB none])) "0"))),
           ("path:0.1", normalizedOf (.mk attrsB none) "0.1"
              (some (getStableNodeId (.mk ra (some [.mk attrsA none, .mk attrsB none])) "0")))]
          "path:0.0" with
        | none => none
        | some previousNode =>
          let nodeDiff := diffNode previousNode (normalizedOf (.mk attrsB none) "0.0"
            (some (getStableNodeId (.mk ra (some [.mk attrsA none, .mk attrsB none])) "0")))
          if nodeDiff.isEmpty then none
          else some
            { id := "path:0.0"
              path := (normalizedOf (.mk attrsB none) "0.0"
                (some (getStableNodeId
                  (.mk ra (some [.mk attrsA none, .mk attrsB none])) "0"))).path
              role := ((normalizedOf (.mk attrsB none) "0.0"
                (some (getStableNodeId
                  (.mk ra (some [.mk attrsA none, .mk attrsB none])) "0"))).role.orElse
                (fun _ => previousNode.role))
              name := ((normalizedOf (.mk attrsB none) "0.0"
                (some (getStableNodeId
                  (.mk ra (some [.mk attrsA none, .mk attrsB none])) "0"))).name.orElse
                (fun _ => previousNode.name))
              changes := nodeDiff }) = some ch := by
      rw [hget]
      dsimp only
      rw [hie]
      exact ⟨_, rfl⟩
    obtain ⟨ch, hch⟩ := hsome
    exact List.ne_nil_of_mem (List.mem_filterMap.mpr
      ⟨("path:0.0", normalizedOf (.mk attrsB none) "0.0"
        (some (getStableNodeId (.mk ra (some [.mk attrsA none, .mk attrsB none])) "0"))),
       by simp, hch⟩)

/-- C1 witness: swapping the two hint-free siblings named `a` and `b`
produces an empty Added list, an empty Removed list and a non-empty
Changed list. -/
theorem sibling_swap_reported_as_changed_witness :
    (diffSnapshots
      (normalizeSnapshot ⟨.mk [("role", .str "list")]
        (some [.mk [("name", .str "a")] none, .mk [("name", .str "b")] none])⟩ "t1")
      (normalizeSnapshot ⟨.mk [("role", .str "list")]
        (some [.mk [("name", .str "b")] none, .mk [("name", .str "a")] none])⟩ "t2")).added = [] ∧
    (diffSnapshots
      (normalizeSnapshot ⟨.mk [("role", .str "list")]
        (some [.mk [("name", .str "a")] none, .mk [("name", .str "b")] none])⟩ "t1")
      (normalizeSnapshot ⟨.mk [("role", .str "list")]
        (some [.mk [("name", .str "b")] none, .mk [("name", .str "a")] none])⟩ "t2")).removed = [] ∧
    (diffSnapshots
      (normalizeSnapshot ⟨.mk [("role", .str "list")]
        (some [.mk [("name", .str "a")] none, .mk [("name", .str "b")] none])⟩ "t1")
      (normalizeSnapshot ⟨.mk [("role", .str "list")]
        (some [.mk [("name", .str "b")] none, .mk [("name", .str "a")] none])⟩ "t2")).changed ≠ [] :=
  sibling_swap_reported_as_changed [("role", .str "list")] [("name", .str "a")]
    [("name", .str "b")] "name" "t1" "t2" rfl rfl rfl
